import Mathlib

/-!
# vxagent: module-lifecycle orchestration (package mmodule)

A shallow embedding of `src/mmodule/net.go` and of the reconnect loop of `Start`
and the method `Stop` of `src/mmodule/mmodule.go`.

* Go maps keyed by string that the orchestrator owns (`mm.modules`) are total
  functions `String → Option _`; assignment is `Function.update`.
* The collaborators that live outside the repository (the protobuf codec, the
  `vxcommon/loader` package, the `vxproto` socket) are a record of functions,
  `Externals`, over abstract state types `L` (loader), `S` (module state handle)
  and `T` (transport).  Every embedded function takes that record as a parameter.
* Go `error` values are `Option String`: `none` is `nil`, `some msg` is an error
  whose `Error()` is `msg`.
* `MainModule.trace` is a ghost field: the embedded code appends one `Event` for
  every mutating call it makes on a collaborator and for every write to
  `mm.modules`, in program order.
-/

namespace agent

/-- Wire message `Config.OS` (generated getters `GetType`, `GetArch`). -/
structure Config_OS where
  OsType : String
  Arch : List String
deriving DecidableEq

/-- Wire message `Config`, as seen through its generated getters. -/
structure Config where
  Os : List Config_OS
  AgentId : String
  Name : String
  Version : String
  Events : List String
  LastUpdate : String
deriving DecidableEq

/-- Wire message `ConfigItem`, as seen through its generated getters. -/
structure ConfigItem where
  ConfigSchema : String
  DefaultConfig : String
  CurrentConfig : String
  EventDataSchema : String
  EventConfigSchema : String
  DefaultEventConfig : String
  CurrentEventConfig : String
deriving DecidableEq

/-- Wire message `Module.File`. -/
structure Module_File where
  Path : String
  Data : List Nat
deriving DecidableEq

/-- Wire message `Module.Arg`. -/
structure Module_Arg where
  Key : String
  Value : List String
deriving DecidableEq

/-- Wire message `Module`: the spec of one module inside a batch.  `Name` is what
`m.GetName()` returns, `Config.Name` what `m.GetConfig().GetName()` returns. -/
structure Module where
  Name : String
  Config : Config
  ConfigItem : ConfigItem
  Files : List Module_File
  Args : List Module_Arg
deriving DecidableEq

/-- Modelled from the spec: the lifecycle status enum of a module instance
(section 6, `status() -> enum{Running,Stopped,...}`); the generated enum itself is
declared in the external `vxcommon/agent` package. -/
inductive ModuleStatus_Status where
  | UNKNOWN
  | RUNNING
  | STOPPED
deriving DecidableEq

/-- Wire message `ModuleStatus`, one entry of a `ModuleStatusList`. -/
structure ModuleStatus where
  Name : String
  Config : Config
  ConfigItem : ConfigItem
  Status : ModuleStatus_Status
deriving DecidableEq

/-- Wire enum `Message.Type`. -/
inductive Message_Type where
  | GET_INFORMATION
  | GET_STATUS_MODULES
  | START_MODULES
  | STOP_MODULES
  | UPDATE_MODULES
  | UPDATE_CONFIG_MODULES
  | INFORMATION_RESULT
  | STATUS_MODULES_RESULT
deriving DecidableEq

end agent

namespace loader

/-- The struct `loader.ModuleConfigItem`. -/
structure ModuleConfigItem where
  ConfigSchema : String
  DefaultConfig : String
  CurrentConfig : String
  EventDataSchema : String
  EventConfigSchema : String
  DefaultEventConfig : String
  CurrentEventConfig : String
deriving DecidableEq

/-- The struct `loader.ModuleConfig`.  The Go map `OS` is an association list
with unique keys (see `mapPut`). -/
structure ModuleConfig where
  OS : List (String × List String)
  AgentID : String
  Name : String
  Version : String
  Events : List String
  LastUpdate : String
  IConfigItem : ModuleConfigItem
deriving DecidableEq

/-- The struct `loader.ModuleItem` as filled by `SetFiles` and `SetArgs`. -/
structure ModuleItem where
  files : List (String × List Nat)
  args : List (String × List String)
deriving DecidableEq

end loader

namespace mmodule

/-- Assignment `m[k] = v` on a Go map kept as an association list: an existing
key keeps its position and takes the new value, a new key goes last. -/
def mapPut {α : Type} (m : List (String × α)) (k : String) (v : α) : List (String × α) :=
  match m with
  | [] => [(k, v)]
  | (k0, v0) :: rest => if k0 = k then (k, v) :: rest else (k0, v0) :: mapPut rest k v

/-- One observable action of the orchestrator on a collaborator or on its own
registry.  Results returned by the collaborator are part of the event. -/
inductive Event where
  | loaderAdd (id : String) (ok : Bool)
  | loaderDel (id : String) (ok : Bool)
  | loaderStart (id : String) (err : Option String)
  | loaderStop (id : String) (err : Option String)
  | controlMsg (id : String) (signal : String) (payload : String)
  | configItemOverwrite (id : String)
  | modulesSet (id : String)
  | modulesDelete (id : String)
  | sendStatusModules (dst : String)
  | sendDataTo (dst : String) (data : List Nat) (err : Option String)
  | connect
  | warn (err : Option String)
  | sleep (nanoseconds : Nat)
  | protoDelModule (ok : Bool)
  | loaderStopAll (err : Option String)
  | receiverSend
  | receiverWait
  | protoClose (err : Option String)
deriving DecidableEq

/-- The collaborators of the orchestrator that are not part of the repository:
the protobuf codec (`proto.Unmarshal`, `proto.Marshal`), the `vxcommon/loader`
package (`NewState` and the `ILoader` methods, `ModuleState.GetStatus`,
`GetModule().ControlMsg`) and the socket of `vxproto` (`SendDataTo`).
`Get` and `List` are read-only queries of the loader state. -/
structure Externals (L S T : Type) where
  Unmarshal : List Nat → Except String (List agent.Module)
  MarshalStatus : List agent.ModuleStatus → Except String (List Nat)
  MarshalMessage : agent.Message_Type → List Nat → Except String (List Nat)
  NewState : loader.ModuleConfig → loader.ModuleItem → Except String S
  Get : L → String → Option S
  Add : L → String → S → Bool × L
  Del : L → String → Bool × L
  Start : L → String → Option String × L
  Stop : L → String → Option String × L
  GetStatus : S → agent.ModuleStatus_Status
  ControlMsg : L → String → String → String → L
  SendDataTo : T → String → List Nat → Option String × T
  List : L → List String

/-- The struct `MainModule`.  `proto` and `socket` record whether the Go fields
are non-nil; `net` is the state of the transport behind them; `trace` is the
ghost log of events. -/
structure MainModule (L T : Type) where
  proto : Bool
  connectionString : String
  agentID : String
  modules : String → Option loader.ModuleConfig
  loader : L
  socket : Bool
  net : T
  hasStopped : Bool
  trace : List Event

/-- The constructor `New`, given the state of a fresh loader and transport. -/
def New {L T : Type} (l : L) (t : T) (connectionString agentID : String) : MainModule L T :=
  { proto := false, connectionString := connectionString, agentID := agentID,
    modules := fun _ => none, loader := l, socket := false, net := t,
    hasStopped := false, trace := [] }

/-- The shape shared by the four loops `for _, m := range moduleList.GetList()`
of net.go: the body runs on each spec in input order, and a body that sets `err`
executes `return`, which ends the loop with that error. -/
def forEachModule {L T : Type} (body : MainModule L T → agent.Module → MainModule L T × Option String)
    (mm : MainModule L T) : List agent.Module → MainModule L T × Option String
  | [] => (mm, none)
  | m :: rest =>
    match body mm m with
    | (mm1, some e) => (mm1, some e)
    | (mm1, none) => forEachModule body mm1 rest

section code

variable {L S T : Type} (E : Externals L S T)

/-- The loop body of `getStatusModules` for one registered config `mc` and one
loader instance `ms`: lines 28 to 59 of net.go.  Go ranges over the map `mc.OS`
in an unspecified order; the model takes the order of the association list. -/
def moduleStatusOf (mc : loader.ModuleConfig) (ms : S) : agent.ModuleStatus :=
  { Name := mc.Name,
    Config :=
      { Os := mc.OS.map (fun p => { OsType := p.1, Arch := p.2 }),
        AgentId := mc.AgentID,
        Name := mc.Name,
        Version := mc.Version,
        Events := mc.Events,
        LastUpdate := mc.LastUpdate },
    ConfigItem :=
      { ConfigSchema := mc.IConfigItem.ConfigSchema,
        DefaultConfig := mc.IConfigItem.DefaultConfig,
        CurrentConfig := mc.IConfigItem.CurrentConfig,
        EventDataSchema := mc.IConfigItem.EventDataSchema,
        EventConfigSchema := mc.IConfigItem.EventConfigSchema,
        DefaultEventConfig := mc.IConfigItem.DefaultEventConfig,
        CurrentEventConfig := mc.IConfigItem.CurrentEventConfig },
    Status := E.GetStatus ms }

/-- The `for _, id := range mm.loader.List()` loop of `getStatusModules`, with
the list built so far as accumulator. -/
def getStatusModulesLoop (mm : MainModule L T) :
    List String → List agent.ModuleStatus → List agent.ModuleStatus
  | [], acc => acc
  | id :: ids, acc =>
    match E.Get mm.loader id with
    | none => getStatusModulesLoop mm ids acc
    | some ms =>
      match mm.modules id with
      | none => getStatusModulesLoop mm ids acc
      | some mc => getStatusModulesLoop mm ids (acc ++ [moduleStatusOf E mc ms])

/-- The method `getStatusModules`.  It only builds and returns the list: the
comment above it in net.go (line 14) is the one of `responseAgent`, and the
method itself sends nothing. -/
def getStatusModules (mm : MainModule L T) : List agent.ModuleStatus :=
  getStatusModulesLoop E mm (E.List mm.loader) []

/-- The method `getModuleConfig`. -/
def getModuleConfig (m : agent.Module) : loader.ModuleConfig :=
  { OS := m.Config.Os.foldl (fun osMap os => mapPut osMap os.OsType os.Arch) [],
    AgentID := m.Config.AgentId,
    Name := m.Config.Name,
    Version := m.Config.Version,
    Events := m.Config.Events,
    LastUpdate := m.Config.LastUpdate,
    IConfigItem :=
      { ConfigSchema := m.ConfigItem.ConfigSchema,
        CurrentConfig := m.ConfigItem.CurrentConfig,
        DefaultConfig := m.ConfigItem.DefaultConfig,
        EventDataSchema := m.ConfigItem.EventDataSchema,
        EventConfigSchema := m.ConfigItem.EventConfigSchema,
        DefaultEventConfig := m.ConfigItem.DefaultEventConfig,
        CurrentEventConfig := m.ConfigItem.CurrentEventConfig } }

/-- The method `getModuleItem`. -/
def getModuleItem (m : agent.Module) : loader.ModuleItem :=
  { files := m.Files.foldl (fun mf f => mapPut mf f.Path f.Data) [],
    args := m.Args.foldl (fun ma a => mapPut ma a.Key a.Value) [] }

/-- The method `responseAgent`; the mutex is not modelled (one thread). -/
def responseAgent (mm : MainModule L T) (dst : String) (msgType : agent.Message_Type)
    (payload : List Nat) : MainModule L T × Option String :=
  if mm.socket = false then
    (mm, some "module Socket didn't initialize")
  else
    match E.MarshalMessage msgType payload with
    | .error e => (mm, some ("error marshal request packet: " ++ e))
    | .ok messageData =>
      let r := E.SendDataTo mm.net dst messageData
      ({ mm with net := r.2, trace := mm.trace ++ [Event.sendDataTo dst messageData r.1] }, r.1)

/-- The method `sendStatusModules`.  Entering it is logged as one event. -/
def sendStatusModules (mm : MainModule L T) (dst : String) : MainModule L T × Option String :=
  let mm0 := { mm with trace := mm.trace ++ [Event.sendStatusModules dst] }
  match E.MarshalStatus (getStatusModules E mm0) with
  | .error e => (mm0, some e)
  | .ok statusModulesData =>
    responseAgent E mm0 dst agent.Message_Type.STATUS_MODULES_RESULT statusModulesData

/-- The deferred closure shared by the four `serve...Modules` methods: it runs
after the body has set the named result `err`, sends the status and merges the
two errors. -/
def deferSendStatus (dst : String) (body : MainModule L T × Option String) :
    MainModule L T × Option String :=
  let r := sendStatusModules E body.1 dst
  match r.2 with
  | none => (r.1, body.2)
  | some errSend =>
    match body.2 with
    | none => (r.1, some errSend)
    | some err => (r.1, some (err ++ " | " ++ errSend))

/-- The call `mm.loader.Add(id, s)`. -/
def loaderAdd (mm : MainModule L T) (id : String) (s : S) : MainModule L T × Bool :=
  let r := E.Add mm.loader id s
  ({ mm with loader := r.2, trace := mm.trace ++ [Event.loaderAdd id r.1] }, r.1)

/-- The call `mm.loader.Del(id)`. -/
def loaderDel (mm : MainModule L T) (id : String) : MainModule L T × Bool :=
  let r := E.Del mm.loader id
  ({ mm with loader := r.2, trace := mm.trace ++ [Event.loaderDel id r.1] }, r.1)

/-- The call `mm.loader.Start(id)`. -/
def loaderStart (mm : MainModule L T) (id : String) : MainModule L T × Option String :=
  let r := E.Start mm.loader id
  ({ mm with loader := r.2, trace := mm.trace ++ [Event.loaderStart id r.1] }, r.1)

/-- The call `mm.loader.Stop(id)`. -/
def loaderStop (mm : MainModule L T) (id : String) : MainModule L T × Option String :=
  let r := E.Stop mm.loader id
  ({ mm with loader := r.2, trace := mm.trace ++ [Event.loaderStop id r.1] }, r.1)

/-- The assignment `mm.modules[id] = mc`. -/
def modulesSet (mm : MainModule L T) (id : String) (mc : loader.ModuleConfig) : MainModule L T :=
  { mm with modules := Function.update mm.modules id (some mc),
            trace := mm.trace ++ [Event.modulesSet id] }

/-- The statement `delete(mm.modules, id)`. -/
def modulesDelete (mm : MainModule L T) (id : String) : MainModule L T :=
  { mm with modules := Function.update mm.modules id none,
            trace := mm.trace ++ [Event.modulesDelete id] }

/-- The body of the loop of `serveStartModules` for one spec `m` (lines 175 to
198 of net.go).  The second component is the value of `err` when the body ends:
`some _` means the body executed `return`. -/
def startModulesStep (mm : MainModule L T) (m : agent.Module) : MainModule L T × Option String :=
  let id := m.Name
  let mc := getModuleConfig m
  let mi := getModuleItem m
  match E.NewState mc mi with
  | .error e => (mm, some e)
  | .ok s =>
    if (E.Get mm.loader id).isSome then
      (mm, some ("module " ++ id ++ " already exists"))
    else
      let a := loaderAdd E mm id s
      if a.2 = false then
        (a.1, some ("failed add module " ++ id ++ " to loader"))
      else
        let st := loaderStart E a.1 id
        match st.2 with
        | some e => (st.1, some e)
        | none => (modulesSet st.1 id mc, none)

/-- The loop of `serveStartModules`: a body that returns ends the loop. -/
def startModulesLoop (mm : MainModule L T) (moduleList : List agent.Module) :
    MainModule L T × Option String :=
  forEachModule (startModulesStep E) mm moduleList

/-- The method `serveStartModules`. -/
def serveStartModules (mm : MainModule L T) (dst : String) (data : List Nat) :
    MainModule L T × Option String :=
  deferSendStatus E dst
    (match E.Unmarshal data with
     | .error e => (mm, some ("error unmarshal of modules information: " ++ e))
     | .ok moduleList => startModulesLoop E mm moduleList)

/-- The body of the loop of `serveStopModules` for one spec `m` (lines 222 to
237 of net.go). -/
def stopModulesStep (mm : MainModule L T) (m : agent.Module) : MainModule L T × Option String :=
  let id := m.Name
  if (E.Get mm.loader id).isNone then
    (mm, some ("module " ++ id ++ " not found"))
  else
    let sp := loaderStop E mm id
    match sp.2 with
    | some e => (sp.1, some e)
    | none =>
      let d := loaderDel E sp.1 id
      if d.2 = false then
        (d.1, some ("failed delete module " ++ id ++ " from loader"))
      else
        (modulesDelete d.1 id, none)

/-- The loop of `serveStopModules`. -/
def stopModulesLoop (mm : MainModule L T) (moduleList : List agent.Module) :
    MainModule L T × Option String :=
  forEachModule (stopModulesStep E) mm moduleList

/-- The method `serveStopModules`. -/
def serveStopModules (mm : MainModule L T) (dst : String) (data : List Nat) :
    MainModule L T × Option String :=
  deferSendStatus E dst
    (match E.Unmarshal data with
     | .error e => (mm, some ("error unmarshal of modules information: " ++ e))
     | .ok moduleList => stopModulesLoop E mm moduleList)

/-- The body of the loop of `serveUpdateModules` for one spec `m` (lines 261 to
293 of net.go). -/
def updateModulesStep (mm : MainModule L T) (m : agent.Module) : MainModule L T × Option String :=
  let id := m.Name
  if (E.Get mm.loader id).isNone then
    (mm, some ("module " ++ id ++ " not found"))
  else
    let sp := loaderStop E mm id
    match sp.2 with
    | some e => (sp.1, some e)
    | none =>
      let d := loaderDel E sp.1 id
      if d.2 = false then
        (d.1, some ("failed delete module " ++ id ++ " from loader"))
      else
        let mc := getModuleConfig m
        let mi := getModuleItem m
        match E.NewState mc mi with
        | .error e => (d.1, some e)
        | .ok s =>
          let a := loaderAdd E d.1 id s
          if a.2 = false then
            (a.1, some ("failed add module " ++ id ++ " to loader"))
          else
            let st := loaderStart E a.1 id
            match st.2 with
            | some e => (st.1, some e)
            | none => (modulesSet st.1 id mc, none)

/-- The loop of `serveUpdateModules`. -/
def updateModulesLoop (mm : MainModule L T) (moduleList : List agent.Module) :
    MainModule L T × Option String :=
  forEachModule (updateModulesStep E) mm moduleList

/-- The method `serveUpdateModules`. -/
def serveUpdateModules (mm : MainModule L T) (dst : String) (data : List Nat) :
    MainModule L T × Option String :=
  deferSendStatus E dst
    (match E.Unmarshal data with
     | .error e => (mm, some ("error unmarshal of modules information: " ++ e))
     | .ok moduleList => updateModulesLoop E mm moduleList)

/-- Lines 326 to 333 of net.go: the seven fields of the config item of the
registered config `romc` are overwritten, in place, with those of `mc`. -/
def overwriteConfigItem (romc mc : loader.ModuleConfig) : loader.ModuleConfig :=
  { romc with
    IConfigItem :=
      { ConfigSchema := mc.IConfigItem.ConfigSchema,
        DefaultConfig := mc.IConfigItem.DefaultConfig,
        CurrentConfig := mc.IConfigItem.CurrentConfig,
        EventDataSchema := mc.IConfigItem.EventDataSchema,
        EventConfigSchema := mc.IConfigItem.EventConfigSchema,
        DefaultEventConfig := mc.IConfigItem.DefaultEventConfig,
        CurrentEventConfig := mc.IConfigItem.CurrentEventConfig } }

/-- The `if romc, ok := mm.modules[id]; ok` block of `serveUpdateConfigModules`:
the write goes through the pointer held by the registry, so it shows in
`mm.modules[id]` until that entry is assigned again.  The same object was handed
to `loader.NewState` when the module was started; what the loader sees of the
write is not modelled. -/
def mergeConfigItem (mm : MainModule L T) (id : String) (mc : loader.ModuleConfig) :
    MainModule L T :=
  match mm.modules id with
  | none => mm
  | some romc =>
    { mm with modules := Function.update mm.modules id (some (overwriteConfigItem romc mc)),
              trace := mm.trace ++ [Event.configItemOverwrite id] }

/-- The call `ms.GetModule().ControlMsg(signal, payload)` on the instance that
`mm.loader.Get(id)` returned. -/
def controlMsg (mm : MainModule L T) (id signal payload : String) : MainModule L T :=
  { mm with loader := E.ControlMsg mm.loader id signal payload,
            trace := mm.trace ++ [Event.controlMsg id signal payload] }

/-- The body of the loop of `serveUpdateConfigModules` for one spec `m` (lines
317 to 337 of net.go). -/
def updateConfigModulesStep (mm : MainModule L T) (m : agent.Module) :
    MainModule L T × Option String :=
  let id := m.Name
  let mc := getModuleConfig m
  if (E.Get mm.loader id).isNone then
    (mm, some ("module " ++ id ++ " not found"))
  else
    let mm1 := mergeConfigItem mm id mc
    let mm2 := modulesSet mm1 id mc
    (controlMsg E mm2 id "update_config" mc.IConfigItem.CurrentConfig, none)

/-- The loop of `serveUpdateConfigModules`. -/
def updateConfigModulesLoop (mm : MainModule L T) (moduleList : List agent.Module) :
    MainModule L T × Option String :=
  forEachModule (updateConfigModulesStep E) mm moduleList

/-- The method `serveUpdateConfigModules`. -/
def serveUpdateConfigModules (mm : MainModule L T) (dst : String) (data : List Nat) :
    MainModule L T × Option String :=
  deferSendStatus E dst
    (match E.Unmarshal data with
     | .error e => (mm, some ("error unmarshal of modules information: " ++ e))
     | .ok moduleList => updateConfigModulesLoop E mm moduleList)

/-- The four module commands that `serveData` dispatches on, each with the
source address and the payload of the message. -/
inductive Command where
  | StartModules (src : String) (payload : List Nat)
  | StopModules (src : String) (payload : List Nat)
  | UpdateModules (src : String) (payload : List Nat)
  | UpdateConfigModules (src : String) (payload : List Nat)
deriving DecidableEq

/-- The `switch message.GetType()` of `serveData`, for the four module commands. -/
def serveCommand (mm : MainModule L T) : Command → MainModule L T × Option String
  | .StartModules src payload => serveStartModules E mm src payload
  | .StopModules src payload => serveStopModules E mm src payload
  | .UpdateModules src payload => serveUpdateModules E mm src payload
  | .UpdateConfigModules src payload => serveUpdateConfigModules E mm src payload

/-- The receive loop applied to a sequence of commands: `recvData` logs the
error of each command and goes on with the next packet. -/
def runCommands (mm : MainModule L T) : List Command → MainModule L T
  | [] => mm
  | c :: rest => runCommands (serveCommand E mm c).1 rest

end code

/-- The constant `time.Second`, in nanoseconds. -/
def Second : Nat := 1000000000

/-- What the reconnect loop of `Start` observes around one call of
`mm.proto.Connect(config)` that returns: the error returned, the value of
`mm.hasStopped` read on line 175 right after the call, and whether `mm.proto` is
nil when line 171 is reached again after the sleep.  The two fields are written
by `Stop`, which runs on another goroutine. -/
structure ConnectReturn where
  err : Option String
  hasStopped : Bool
  protoNil : Bool
deriving DecidableEq

/-- The `for` loop of `Start` (lines 170 to 180 of mmodule.go) against a script
of the Connect calls that return; when the script is used up the next Connect
call does not return: it holds the connection, since Connect blocks while the
agent is connected (spec section 5).  The Boolean is `true` when the loop was
left by `break` (so `Start` returns) and `false` when the loop is inside a
Connect call that holds. -/
def reconnectLoop {L T : Type} (mm : MainModule L T) : List ConnectReturn → MainModule L T × Bool
  | [] =>
    if mm.proto = false then (mm, true)
    else ({ mm with trace := mm.trace ++ [Event.connect] }, false)
  | r :: rest =>
    if mm.proto = false then (mm, true)
    else
      let mm1 := { mm with hasStopped := r.hasStopped, trace := mm.trace ++ [Event.connect] }
      if mm1.hasStopped then (mm1, true)
      else
        let mm2 := { mm1 with trace := mm1.trace ++ [Event.warn r.err] }
        let mm3 := { mm2 with proto := !r.protoNil,
                              trace := mm2.trace ++ [Event.sleep (Second * 5)] }
        reconnectLoop mm3 rest

/-! ## A reference loader and transport

Concrete collaborators used to run the embedded code on explicit inputs. -/

/-- Modelled from the spec: a module instance held by the loader collaborator of
section 6 (the handle that `get` returns): the config and item it was built
from, its lifecycle status and the control signals delivered to it. -/
structure Instance where
  config : loader.ModuleConfig
  item : loader.ModuleItem
  status : agent.ModuleStatus_Status
  signals : List (String × String)
deriving DecidableEq

/-- Modelled from the spec: the loader collaborator of section 6, a table of
instances keyed by module ID, in insertion order.  The four `fail...` lists
script which calls the loader refuses: `failStart` holds pairs of a module ID and
a config version whose start fails. -/
structure TableLoader where
  items : List (String × Instance)
  failAdd : List String
  failDel : List String
  failStart : List (String × String)
  failStop : List String
deriving DecidableEq

/-- Modelled from the spec: `get(moduleID) -> instanceHandle|nil`. -/
def TableLoader.Get (l : TableLoader) (id : String) : Option Instance :=
  l.items.lookup id

/-- Modelled from the spec: `add(moduleID, state) -> bool`; an ID that is already
in the table is refused. -/
def TableLoader.Add (l : TableLoader) (id : String) (s : Instance) : Bool × TableLoader :=
  if id ∈ l.failAdd ∨ (l.items.lookup id).isSome then (false, l)
  else (true, { l with items := l.items ++ [(id, s)] })

/-- Modelled from the spec: `del(moduleID) -> bool`. -/
def TableLoader.Del (l : TableLoader) (id : String) : Bool × TableLoader :=
  if id ∈ l.failDel ∨ (l.items.lookup id).isNone then (false, l)
  else (true, { l with items := l.items.filter (fun p => p.1 ≠ id) })

/-- Replace the status of the instance stored under `id`. -/
def TableLoader.setStatus (l : TableLoader) (id : String) (st : agent.ModuleStatus_Status) :
    TableLoader :=
  { l with items := l.items.map (fun p => if p.1 = id then (p.1, { p.2 with status := st }) else p) }

/-- Modelled from the spec: `start(moduleID) -> error`. -/
def TableLoader.Start (l : TableLoader) (id : String) : Option String × TableLoader :=
  match l.items.lookup id with
  | none => (some ("module " ++ id ++ " is not loaded"), l)
  | some inst =>
    if (id, inst.config.Version) ∈ l.failStart then (some ("failed to start module " ++ id), l)
    else (none, l.setStatus id agent.ModuleStatus_Status.RUNNING)

/-- Modelled from the spec: `stop(moduleID) -> error`. -/
def TableLoader.Stop (l : TableLoader) (id : String) : Option String × TableLoader :=
  match l.items.lookup id with
  | none => (some ("module " ++ id ++ " is not loaded"), l)
  | some _ =>
    if id ∈ l.failStop then (some ("failed to stop module " ++ id), l)
    else (none, l.setStatus id agent.ModuleStatus_Status.STOPPED)

/-- Modelled from the spec: `sendControl(signal, payload)` on the instance of `id`. -/
def TableLoader.ControlMsg (l : TableLoader) (id signal payload : String) : TableLoader :=
  { l with items := l.items.map (fun p =>
      if p.1 = id then (p.1, { p.2 with signals := p.2.signals ++ [(signal, payload)] }) else p) }

/-- Modelled from the spec: the transport collaborator of section 6, reduced to
`sendDataTo(destination, bytes) -> error`: the packets sent so far and the error,
if any, that every send returns. -/
structure Wire where
  sent : List (String × List Nat)
  sendErr : Option String
deriving DecidableEq

/-- Modelled from the spec: `sendDataTo(destination, bytes) -> error`. -/
def Wire.SendDataTo (w : Wire) (dst : String) (data : List Nat) : Option String × Wire :=
  match w.sendErr with
  | some e => (some e, w)
  | none => (none, { w with sent := w.sent ++ [(dst, data)] })

/-- The reference collaborators: the table loader and the wire above, with a
codec given by `decode` for module lists; status lists are encoded as the
lengths of their names and messages as their payload. -/
def tableExternals (decode : List Nat → Except String (List agent.Module)) :
    Externals TableLoader Instance Wire :=
  { Unmarshal := decode,
    MarshalStatus := fun l => .ok (l.map (fun s => s.Name.length)),
    MarshalMessage := fun _ payload => .ok payload,
    NewState := fun mc mi =>
      .ok { config := mc, item := mi, status := agent.ModuleStatus_Status.UNKNOWN, signals := [] },
    Get := TableLoader.Get,
    Add := TableLoader.Add,
    Del := TableLoader.Del,
    Start := TableLoader.Start,
    Stop := TableLoader.Stop,
    GetStatus := fun inst => inst.status,
    ControlMsg := TableLoader.ControlMsg,
    SendDataTo := Wire.SendDataTo,
    List := fun l => l.items.map (fun p => p.1) }

/-- A module spec with the given module name, config name and version, and
nothing else set. -/
def specOf (name cfgName version : String) : agent.Module :=
  { Name := name,
    Config := { Os := [], AgentId := "", Name := cfgName, Version := version, Events := [],
                LastUpdate := "" },
    ConfigItem := { ConfigSchema := "", DefaultConfig := "", CurrentConfig := "",
                    EventDataSchema := "", EventConfigSchema := "", DefaultEventConfig := "",
                    CurrentEventConfig := "" },
    Files := [],
    Args := [] }

/-- A codec that decodes the one payload `[n]` with `n < batches.length` to the
`n`-th batch and refuses every other payload. -/
def decodeTable (batches : List (List agent.Module)) (data : List Nat) :
    Except String (List agent.Module) :=
  match data with
  | [n] =>
    match batches.get? n with
    | some b => .ok b
    | none => .error "unexpected EOF"
  | _ => .error "unexpected EOF"

/-- An empty table loader with the given failure script. -/
def emptyLoader (failAdd failDel : List String) (failStart : List (String × String))
    (failStop : List String) : TableLoader :=
  { items := [], failAdd := failAdd, failDel := failDel, failStart := failStart,
    failStop := failStop }

/-- An orchestrator with no modules over the reference collaborators, with its
socket initialised. -/
def freshMain (l : TableLoader) : MainModule TableLoader Wire :=
  { New l { sent := [], sendErr := none } "wss://server" "agent-1" with
    proto := true, socket := true }

end mmodule

namespace mmodule

/-! ## Histories and the contract of the loader -/

/-- One unit of work of the orchestrator: the body of one of the four batch
loops run on one spec, or one status send.  Every command runs a sequence of
such steps. -/
inductive Step where
  | start (m : agent.Module)
  | stop (m : agent.Module)
  | update (m : agent.Module)
  | updateConfig (m : agent.Module)
  | sendStatus (dst : String)
deriving DecidableEq

/-- The state after one step; the error of the step is dropped, as `recvData`
does after logging it. -/
def Step.exec {L S T : Type} (E : Externals L S T) (mm : MainModule L T) : Step → MainModule L T
  | .start m => (startModulesStep E mm m).1
  | .stop m => (stopModulesStep E mm m).1
  | .update m => (updateModulesStep E mm m).1
  | .updateConfig m => (updateConfigModulesStep E mm m).1
  | .sendStatus dst => (sendStatusModules E mm dst).1

/-- The state after a sequence of steps. -/
def runSteps {L S T : Type} (E : Externals L S T) (mm : MainModule L T) (steps : List Step) :
    MainModule L T :=
  steps.foldl (Step.exec E) mm

/-- Whether a step is a stop or an update of the module named `id`, the two
bodies that call the loader's `Stop` and `Del`. -/
def Step.stops (id : String) : Step → Bool
  | .stop m => decide (m.Name = id)
  | .update m => decide (m.Name = id)
  | _ => false

/-- The part of the contract of the loader collaborator (spec section 6) about
which IDs `Get` finds: an ID is found after its `Add` succeeded, and an ID that
is found stays found across every call that is not a `Stop` or `Del` of that
same ID. -/
structure LoaderKeeps {L S T : Type} (E : Externals L S T) : Prop where
  get_add : ∀ l id s, (E.Add l id s).1 = true → (E.Get (E.Add l id s).2 id).isSome = true
  keep_add : ∀ l id s k, (E.Get l k).isSome = true → (E.Get (E.Add l id s).2 k).isSome = true
  keep_start : ∀ l id k, (E.Get l k).isSome = true → (E.Get (E.Start l id).2 k).isSome = true
  keep_stop : ∀ l id k, k ≠ id → (E.Get l k).isSome = true →
    (E.Get (E.Stop l id).2 k).isSome = true
  keep_del : ∀ l id k, k ≠ id → (E.Get l k).isSome = true →
    (E.Get (E.Del l id).2 k).isSome = true
  keep_control : ∀ l id signal payload k, (E.Get l k).isSome = true →
    (E.Get (E.ControlMsg l id signal payload) k).isSome = true

/-- Whether an event is a change of the loader or of the registry: a mutating
loader call, a control message to an instance, or a write to `mm.modules`. -/
def Event.isChange : Event → Bool
  | .loaderAdd _ _ => true
  | .loaderDel _ _ => true
  | .loaderStart _ _ => true
  | .loaderStop _ _ => true
  | .controlMsg _ _ _ => true
  | .configItemOverwrite _ => true
  | .modulesSet _ => true
  | .modulesDelete _ => true
  | _ => false

/-- The destination of the response to a command: the source of the packet. -/
def Command.src : Command → String
  | .StartModules src _ => src
  | .StopModules src _ => src
  | .UpdateModules src _ => src
  | .UpdateConfigModules src _ => src

/-- The events of a start sequence that succeeds for the module named `n` occur
in `evs`, in a row: the loader's add succeeded, the loader's start succeeded, and
then, as the last step, the registry entry was written. -/
def StartedThenSet (n : String) (evs : List Event) : Prop :=
  [Event.loaderAdd n true, Event.loaderStart n none, Event.modulesSet n] <:+: evs

/-- The events of the body of UpdateConfigModules for the module named `n` occur
in `evs`, in a row: the registry entry was written and the control signal
`update_config` was sent to the instance that the loader holds for `n`. -/
def ConfigUpdated (n : String) (evs : List Event) : Prop :=
  ∃ payload, [Event.modulesSet n, Event.controlMsg n "update_config" payload] <:+: evs

/-- The events of a stop sequence that succeeds for the module named `n` occur in
`evs`, in a row: the loader's stop succeeded, the loader's delete succeeded, and
then the registry entry was removed. -/
def StoppedThenDeleted (n : String) (evs : List Event) : Prop :=
  [Event.loaderStop n none, Event.loaderDel n true, Event.modulesDelete n] <:+: evs

/-- Between the states `mm` and `mm1` the trace only grew, by `evs`; every name
that went from absent to present in the registry has `A` of `evs`, and every name
that went from present to absent has `B` of `evs`. -/
def Transitions {L T : Type} (A B : String → List Event → Prop) (mm mm1 : MainModule L T) :
    Prop :=
  ∃ evs, mm1.trace = mm.trace ++ evs ∧
    ∀ n, (mm.modules n = none → (mm1.modules n).isSome = true → A n evs) ∧
      ((mm.modules n).isSome = true → mm1.modules n = none → B n evs)

/-- The property `A` of a list of events is kept when events are added before
and after. -/
def Monotone2 (A : String → List Event → Prop) : Prop :=
  ∀ n pre evs suf, A n evs → A n (pre ++ evs ++ suf)

/-- The reference collaborators with a codec that decodes `[0]` to the batch
`[a]`. -/
def envA : Externals TableLoader Instance Wire :=
  tableExternals (decodeTable [[specOf "a" "a" "1"]])

/-- Stop-then-start for one spec, following the words of the spec for
UpdateModules (section 4.1: "stop-then-start semantics per spec, same
early-abort-on-error policy as StopModules, reusing the start path to
re-register"): the body of the StopModules loop for the name and, when it did not
fail, the body of the StartModules loop for the spec. -/
def stopThenStartStep {L S T : Type} (E : Externals L S T) (mm : MainModule L T)
    (m : agent.Module) : MainModule L T × Option String :=
  match stopModulesStep E mm m with
  | (mm1, some e) => (mm1, some e)
  | (mm1, none) => startModulesStep E mm1 m

/-- The events of the reconnect loop for a run of Connect calls that each
returned with the stop flag unset: per call, the Connect, the warning that logs
its result and the sleep of five seconds. -/
def retryEvents : List ConnectReturn → List Event
  | [] => []
  | r :: rest => Event.connect :: Event.warn r.err :: Event.sleep (Second * 5) :: retryEvents rest

/-- The number of backoff waits (calls of `time.Sleep`) in a trace. -/
def countSleeps (tr : List Event) : Nat :=
  tr.countP (fun e => match e with
    | .sleep _ => true
    | _ => false)

/-- The number of Connect calls in a trace. -/
def countConnects (tr : List Event) : Nat :=
  tr.countP (fun e => match e with
    | .connect => true
    | _ => false)

/-- A Connect call that fails and returns while the stop flag is unset. -/
def connectFails : ConnectReturn :=
  { err := some "connection refused", hasStopped := false, protoNil := false }

/-- Whether a command is a StopModules or UpdateModules whose payload decodes to
a batch that lists the module named `id`. -/
def Command.stopsName {L S T : Type} (E : Externals L S T) (id : String) : Command → Prop
  | .StopModules _ payload => ∃ l, E.Unmarshal payload = .ok l ∧ ∃ m ∈ l, m.Name = id
  | .UpdateModules _ payload => ∃ l, E.Unmarshal payload = .ok l ∧ ∃ m ∈ l, m.Name = id
  | _ => False

/-! ## UpdateConfigModules: signals and loader calls -/

/-- Whether an event is a call of the loader's add, delete, start or stop. -/
def Event.isLoaderCall : Event → Bool
  | .loaderAdd _ _ => true
  | .loaderDel _ _ => true
  | .loaderStart _ _ => true
  | .loaderStop _ _ => true
  | _ => false

/-- Whether an event is a control signal sent to a module instance. -/
def Event.isControl : Event → Bool
  | .controlMsg _ _ _ => true
  | _ => false

/-- The control signal that UpdateConfigModules sends for the spec `m`: the
signal `update_config` to the instance named like the spec, carrying the current
config of the spec. -/
def configSignal (m : agent.Module) : Event :=
  Event.controlMsg m.Name "update_config" m.ConfigItem.CurrentConfig

/-- The module list that a payload decodes to; a payload that does not decode
carries no spec. -/
def decodedBatch {L S T : Type} (E : Externals L S T) (data : List Nat) : List agent.Module :=
  match E.Unmarshal data with
  | .ok moduleList => moduleList
  | .error _ => []

/-- The part of the contract of the loader collaborator (spec section 6) about
control signals: delivering a signal to an instance changes neither the list of
module IDs nor the lifecycle status of any instance. -/
structure ControlKeeps {L S T : Type} (E : Externals L S T) : Prop where
  list_control : ∀ l id signal payload, E.List (E.ControlMsg l id signal payload) = E.List l
  status_control : ∀ l id signal payload k,
    (E.Get (E.ControlMsg l id signal payload) k).map E.GetStatus = (E.Get l k).map E.GetStatus

/-! ## Stop -/

/-- The collaborators that only `Stop` calls: `mm.proto.DelModule(mm.socket)`,
`mm.loader.StopAll()`, `mm.socket.GetReceiver()` (whether it is non-nil), the
send of the StopModule packet on the receiver channel, `mm.wgReceiver.Wait()`
and `mm.proto.Close()`.  The send and the wait block until the receive loop,
which runs on another goroutine, takes the packet and ends: they return `none`
when that never happens. -/
structure StopExternals (L T : Type) where
  DelModule : T → Bool × T
  StopAll : L → Option String × L
  GetReceiver : T → Bool
  SendStop : T → Option T
  WaitReceiver : T → Option T
  Close : T → Option String × T

section stop

variable {L S T : Type} (E : Externals L S T) (X : StopExternals L T)

/-- The loop `for _, id := range mm.loader.List()` of `Stop` over the listed IDs:
the Boolean is `false` when a `Del` returned false, which ends `Stop`. -/
def stopDelLoop (mm : MainModule L T) : List String → MainModule L T × Bool
  | [] => (mm, true)
  | id :: ids =>
    let d := loaderDel E mm id
    if d.2 = false then (d.1, false) else stopDelLoop d.1 ids

/-- Lines 211 to 230 of mmodule.go: the StopModule packet is sent to the
receiver when there is one, the receive loop is awaited, the transport is closed,
and then the registry is replaced by an empty map and `proto` and `socket` are
set to nil.  The result is `none` when the send or the wait never returns. -/
def stopRelease (mm : MainModule L T) : Option (MainModule L T × Option String) :=
  let sent : Option (MainModule L T) :=
    if X.GetReceiver mm.net = true then
      (X.SendStop mm.net).map
        (fun t => { mm with net := t, trace := mm.trace ++ [Event.receiverSend] })
    else some mm
  match sent with
  | none => none
  | some mm1 =>
    match X.WaitReceiver mm1.net with
    | none => none
    | some t =>
      let mm2 := { mm1 with net := t, trace := mm1.trace ++ [Event.receiverWait] }
      let c := X.Close mm2.net
      let mm3 := { mm2 with net := c.2, trace := mm2.trace ++ [Event.protoClose c.1] }
      match c.1 with
      | some e => some (mm3, some e)
      | none =>
        some ({ mm3 with modules := fun _ => none, proto := false, socket := false }, none)

/-- The method `Stop`.  The result is `none` when the call never returns. -/
def Stop (mm : MainModule L T) : Option (MainModule L T × Option String) :=
  let mm0 := { mm with hasStopped := true }
  if mm0.proto = false then
    some (mm0, some "VXProto didn't initialized")
  else if mm0.socket = false then
    some (mm0, some "module socket didn't initialized")
  else
    let d := X.DelModule mm0.net
    let mm1 := { mm0 with net := d.2, trace := mm0.trace ++ [Event.protoDelModule d.1] }
    if d.1 = false then
      some (mm1, some "failed delete module socket")
    else
      let sa := X.StopAll mm1.loader
      let mm2 := { mm1 with loader := sa.2, trace := mm1.trace ++ [Event.loaderStopAll sa.1] }
      match sa.1 with
      | some e => some (mm2, some ("modules didn't stop: " ++ e))
      | none =>
        let dl := stopDelLoop E mm2 (E.List mm2.loader)
        if dl.2 = false then
          some (dl.1, some "failed delete module from loader")
        else
          stopRelease X dl.1

end stop

/-- Modelled from the spec: `stopAll() -> error` of the loader collaborator of
section 6: it fails when the loader refuses to stop one of its instances, and
otherwise marks every instance as stopped. -/
def TableLoader.StopAll (l : TableLoader) : Option String × TableLoader :=
  match l.items.find? (fun p => p.1 ∈ l.failStop) with
  | some p => (some ("failed to stop module " ++ p.1), l)
  | none =>
    let stopped := l.items.map
      (fun p => (p.1, { p.2 with status := agent.ModuleStatus_Status.STOPPED }))
    (none, { l with items := stopped })

/-- Modelled from the spec: the calls of `Stop` on the reference collaborators:
the endpoint is deregistered, the receive loop takes the StopModule packet and
ends, and the transport closes without error. -/
def tableStopExternals : StopExternals TableLoader Wire :=
  { DelModule := fun w => (true, w),
    StopAll := TableLoader.StopAll,
    GetReceiver := fun _ => true,
    SendStop := fun w => some w,
    WaitReceiver := fun w => some w,
    Close := fun w => (none, w) }

/-! ## Concrete scenarios -/

/-- The batch `[a, b]` of the start scenario. -/
def batchAB : List agent.Module := [specOf "a" "a" "1", specOf "b" "b" "1"]

/-- The reference collaborators with a codec that decodes `[0]` to `batchAB`. -/
def envAB : Externals TableLoader Instance Wire := tableExternals (decodeTable [batchAB])

/-- An orchestrator with no modules whose loader fails to start module `a`
(version 1) and starts every other module. -/
def startFailsForA : MainModule TableLoader Wire :=
  freshMain (emptyLoader [] [] [("a", "1")] [])

/-- The events of a stop loop that succeeds on every spec of `pre`: for each
name, in order, a successful `Stop`, a successful `Del` and the removal of the
registry entry. -/
def stopEvents : List agent.Module → List Event
  | [] => []
  | p :: rest =>
    Event.loaderStop p.Name none :: Event.loaderDel p.Name true :: Event.modulesDelete p.Name
      :: stopEvents rest

/-- The batch `[x, y, x]` of the stop scenario. -/
def batchXYX : List agent.Module := [specOf "x" "x" "1", specOf "y" "y" "1", specOf "x" "x" "1"]

/-- A spec for module `x` at version 2, with a new current config and a new
last-update stamp. -/
def specXv2 : agent.Module :=
  { Name := "x",
    Config := { Os := [], AgentId := "", Name := "x", Version := "2", Events := [],
                LastUpdate := "2020-02-02" },
    ConfigItem := { ConfigSchema := "", DefaultConfig := "", CurrentConfig := "level=debug",
                    EventDataSchema := "", EventConfigSchema := "", DefaultEventConfig := "",
                    CurrentEventConfig := "" },
    Files := [],
    Args := [] }

/-- The reference collaborators with a codec that decodes `[0]` to `[x]`, `[1]`
to `batchXYX`, `[2]` to `[x, y, z]` and `[3]` to `[specXv2]`. -/
def envX : Externals TableLoader Instance Wire :=
  tableExternals (decodeTable [[specOf "x" "x" "1"], batchXYX,
    [specOf "x" "x" "1", specOf "y" "y" "1", specOf "z" "z" "1"], [specXv2]])

/-- The orchestrator after `StartModules [x]` on the empty one: `x` is running
and registered, `y` is unknown. -/
def runningX : MainModule TableLoader Wire :=
  (serveStartModules envX (freshMain (emptyLoader [] [] [] [])) "srv" [0]).1

/-- The reference collaborators with a codec that decodes `[0]` to the batch of
one spec whose module name is `a` and whose config name is `b`. -/
def envMis : Externals TableLoader Instance Wire :=
  tableExternals (decodeTable [[specOf "a" "b" "1"]])

/-- The orchestrator after `StartModules` of that spec on the empty one. -/
def runningMis : MainModule TableLoader Wire :=
  (serveStartModules envMis (freshMain (emptyLoader [] [] [] [])) "srv" [0]).1

/-- The join that `getStatusModules` computes for one ID: the status entry of
the ID when the loader has an instance and the registry has an entry for it. -/
def joinStatus {L S T : Type} (E : Externals L S T) (mm : MainModule L T) (id : String) :
    Option agent.ModuleStatus :=
  match E.Get mm.loader id, mm.modules id with
  | some ms, some mc => some (moduleStatusOf E mc ms)
  | _, _ => none

/-- Whether the ID is in both tables: the loader has an instance and the
registry has an entry for it. -/
def inBoth {L S T : Type} (E : Externals L S T) (mm : MainModule L T) (id : String) : Bool :=
  (E.Get mm.loader id).isSome && (mm.modules id).isSome

/-- The orchestrator after `StartModules [x]` on the empty one, over a loader
that refuses to stop `x`. -/
def runningXStopFails : MainModule TableLoader Wire :=
  (serveStartModules envX (freshMain (emptyLoader [] [] [] ["x"])) "srv" [0]).1

/-- The orchestrator after `StartModules [x]` on the empty one, over a loader
that refuses to delete `x`. -/
def runningXDelFails : MainModule TableLoader Wire :=
  (serveStartModules envX (freshMain (emptyLoader [] ["x"] [] [])) "srv" [0]).1

/-- The orchestrator after `StartModules [x]` (version 1) on the empty one, over
a loader that fails to start `x` at version 2. -/
def runningXv2Broken : MainModule TableLoader Wire :=
  (serveStartModules envX (freshMain (emptyLoader [] [] [("x", "2")] [])) "srv" [0]).1

/-- The reference collaborators with a codec that decodes `[0]` to the batch
`[specXv2, y, specXv2]`, whose second name is unknown when `x` alone is running. -/
def envCfg : Externals TableLoader Instance Wire :=
  tableExternals (decodeTable [[specXv2, specOf "y" "y" "1", specXv2]])

/-- The orchestrator that the first `Stop` leaves when it is called with `x`
running. -/
def stoppedX : MainModule TableLoader Wire :=
  match Stop envX tableStopExternals runningX with
  | some r => r.1
  | none => runningX

end mmodule

/-! ## Properties -/

namespace mmodule

section lemmas

variable {L S T : Type} (E : Externals L S T)

theorem forEachModule_append
    (body : MainModule L T → agent.Module → MainModule L T × Option String)
    (mm : MainModule L T) (pre rest : List agent.Module) :
    forEachModule body mm (pre ++ rest) =
      match forEachModule body mm pre with
      | (mm1, none) => forEachModule body mm1 rest
      | (mm1, some e) => (mm1, some e) := by
  induction pre generalizing mm with
  | nil => simp [forEachModule]
  | cons m pre ih =>
    simp only [List.cons_append, forEachModule]
    rcases hb : body mm m with ⟨mm1, _ | e⟩
    · simpa using ih mm1
    · simp

theorem forEachModule_ok_then_fail
    (body : MainModule L T → agent.Module → MainModule L T × Option String)
    (mm mm1 mm2 : MainModule L T) (pre suf : List agent.Module) (m : agent.Module) (e : String)
    (hpre : forEachModule body mm pre = (mm1, none))
    (hm : body mm1 m = (mm2, some e)) :
    forEachModule body mm (pre ++ m :: suf) = (mm2, some e) := by
  rw [forEachModule_append, hpre]
  simp [forEachModule, hm]

theorem responseAgent_frame (mm : MainModule L T) (dst : String) (t : agent.Message_Type)
    (payload : List Nat) :
    (responseAgent E mm dst t payload).1.modules = mm.modules ∧
    (responseAgent E mm dst t payload).1.loader = mm.loader ∧
    ∃ sends, (responseAgent E mm dst t payload).1.trace = mm.trace ++ sends ∧
      sends.length ≤ 1 ∧ ∀ e ∈ sends, ∃ d r, e = Event.sendDataTo dst d r := by
  unfold responseAgent
  split
  · exact ⟨rfl, rfl, [], by simp, by simp, by simp⟩
  · split
    · exact ⟨rfl, rfl, [], by simp, by simp, by simp⟩
    · exact ⟨rfl, rfl, [_], rfl, by simp, by simp⟩

theorem sendStatusModules_frame (mm : MainModule L T) (dst : String) :
    (sendStatusModules E mm dst).1.modules = mm.modules ∧
    (sendStatusModules E mm dst).1.loader = mm.loader ∧
    ∃ sends, (sendStatusModules E mm dst).1.trace
        = mm.trace ++ Event.sendStatusModules dst :: sends ∧
      sends.length ≤ 1 ∧ ∀ e ∈ sends, ∃ d r, e = Event.sendDataTo dst d r := by
  unfold sendStatusModules
  simp only
  split
  · exact ⟨rfl, rfl, [], by simp, by simp, by simp⟩
  · rename_i data _
    obtain ⟨h1, h2, sends, h3, h4, h5⟩ := responseAgent_frame E
      { mm with trace := mm.trace ++ [Event.sendStatusModules dst] } dst
      agent.Message_Type.STATUS_MODULES_RESULT data
    refine ⟨h1, h2, sends, ?_, h4, h5⟩
    rw [h3]
    simp

theorem deferSendStatus_fst (dst : String) (body : MainModule L T × Option String) :
    (deferSendStatus E dst body).1 = (sendStatusModules E body.1 dst).1 := by
  unfold deferSendStatus
  simp only
  split
  · rfl
  · split <;> rfl

theorem deferSendStatus_err (dst : String) (mm : MainModule L T) (e : String) :
    (deferSendStatus E dst (mm, some e)).2 = some e ∨
    ∃ errSend, (deferSendStatus E dst (mm, some e)).2 = some (e ++ " | " ++ errSend) := by
  unfold deferSendStatus
  simp only
  split
  · exact Or.inl rfl
  · rename_i errSend _
    exact Or.inr ⟨errSend, rfl⟩

/-! ### The reference loader keeps the contract -/

theorem lookup_cons_eq {α : Type} (k a : String) (b : α) (l : List (String × α)) :
    List.lookup k ((a, b) :: l) = if k = a then some b else List.lookup k l := by
  by_cases h : k = a
  · subst h
    simp only [List.lookup, beq_self_eq_true, if_true]
  · have hb : (k == a) = false := by simpa using h
    simp only [List.lookup, hb, if_neg h]

theorem lookup_isSome_append {α : Type} (l : List (String × α)) (id k : String) (v : α)
    (h : (l.lookup k).isSome = true) : ((l ++ [(id, v)]).lookup k).isSome = true := by
  induction l with
  | nil => simp [List.lookup] at h
  | cons p l ih =>
    obtain ⟨a, b⟩ := p
    rw [List.cons_append, lookup_cons_eq]
    rw [lookup_cons_eq] at h
    by_cases hk : k = a
    · simp only [if_pos hk, Option.isSome_some]
    · rw [if_neg hk] at h ⊢
      exact ih h

theorem lookup_append_self {α : Type} (l : List (String × α)) (id : String) (v : α) :
    ((l ++ [(id, v)]).lookup id).isSome = true := by
  induction l with
  | nil => simp only [List.nil_append, lookup_cons_eq, if_true, Option.isSome_some]
  | cons p l ih =>
    obtain ⟨a, b⟩ := p
    rw [List.cons_append, lookup_cons_eq]
    by_cases hk : id = a
    · simp only [if_pos hk, Option.isSome_some]
    · rw [if_neg hk]
      exact ih

theorem lookup_isSome_map {α : Type} (l : List (String × α)) (k : String)
    (g : String × α → String × α) (hg : ∀ p, (g p).1 = p.1) :
    ((l.map g).lookup k).isSome = (l.lookup k).isSome := by
  induction l with
  | nil => rfl
  | cons p l ih =>
    obtain ⟨a, b⟩ := p
    have hp : g (a, b) = (a, (g (a, b)).2) := Prod.ext (hg (a, b)) rfl
    rw [List.map_cons, hp, lookup_cons_eq, lookup_cons_eq]
    by_cases hk : k = a
    · simp only [if_pos hk, Option.isSome_some]
    · rw [if_neg hk, if_neg hk]
      exact ih

theorem lookup_filter_ne {α : Type} (l : List (String × α)) (id k : String) (hk : k ≠ id) :
    (l.filter (fun p => p.1 ≠ id)).lookup k = l.lookup k := by
  induction l with
  | nil => rfl
  | cons p l ih =>
    obtain ⟨a, b⟩ := p
    by_cases ha : a = id
    · have hka : k ≠ a := by rw [ha]; exact hk
      rw [List.filter_cons_of_neg (by simpa using ha), lookup_cons_eq, if_neg hka]
      exact ih
    · rw [List.filter_cons_of_pos (by simpa using ha), lookup_cons_eq, lookup_cons_eq, ih]

theorem lookup_filter_self {α : Type} (l : List (String × α)) (id : String) :
    (l.filter (fun p => p.1 ≠ id)).lookup id = none := by
  induction l with
  | nil => rfl
  | cons p l ih =>
    obtain ⟨a, b⟩ := p
    by_cases ha : a = id
    · rw [List.filter_cons_of_neg (by simpa using ha)]
      exact ih
    · rw [List.filter_cons_of_pos (by simpa using ha), lookup_cons_eq, if_neg (Ne.symm ha)]
      exact ih

theorem tableExternals_keeps (decode : List Nat → Except String (List agent.Module)) :
    LoaderKeeps (tableExternals decode) where
  get_add := by
    intro l id s h
    simp only [tableExternals, TableLoader.Add, TableLoader.Get] at h ⊢
    split at h
    · simp at h
    · simp only [if_neg ‹_›]
      exact lookup_append_self _ _ _
  keep_add := by
    intro l id s k h
    simp only [tableExternals, TableLoader.Add, TableLoader.Get] at h ⊢
    split
    · exact h
    · exact lookup_isSome_append _ _ _ _ h
  keep_start := by
    intro l id k h
    simp only [tableExternals, TableLoader.Start, TableLoader.Get] at h ⊢
    split
    · exact h
    · split
      · exact h
      · simp only [TableLoader.setStatus]
        rw [lookup_isSome_map _ _ _ (by intro p; split <;> rfl)]
        exact h
  keep_stop := by
    intro l id k _ h
    simp only [tableExternals, TableLoader.Stop, TableLoader.Get] at h ⊢
    split
    · exact h
    · split
      · exact h
      · simp only [TableLoader.setStatus]
        rw [lookup_isSome_map _ _ _ (by intro p; split <;> rfl)]
        exact h
  keep_del := by
    intro l id k hk h
    simp only [tableExternals, TableLoader.Del, TableLoader.Get] at h ⊢
    split
    · exact h
    · simp only
      rw [lookup_filter_ne _ _ _ hk]
      exact h
  keep_control := by
    intro l id signal payload k h
    simp only [tableExternals, TableLoader.ControlMsg, TableLoader.Get] at h ⊢
    rw [lookup_isSome_map _ _ _ (by intro p; split <;> rfl)]
    exact h

/-! ### What each loop body does to the loader and to the registry -/

theorem isSome_update_some {β : Type} (f : String → Option β) (id k : String) (v : β)
    (h : (f k).isSome = true) : (Function.update f id (some v) k).isSome = true := by
  by_cases hk : k = id
  · subst hk
    simp
  · rw [Function.update_noteq hk]
    exact h

theorem startModulesStep_keeps_loader (hl : LoaderKeeps E) (mm : MainModule L T)
    (m : agent.Module) (k : String) (h : (E.Get mm.loader k).isSome = true) :
    (E.Get (startModulesStep E mm m).1.loader k).isSome = true := by
  unfold startModulesStep
  simp only
  split
  · exact h
  · split
    · exact h
    · split
      · exact hl.keep_add _ _ _ _ h
      · split
        · exact hl.keep_start _ _ _ (hl.keep_add _ _ _ _ h)
        · exact hl.keep_start _ _ _ (hl.keep_add _ _ _ _ h)

theorem startModulesStep_keeps_modules (mm : MainModule L T) (m : agent.Module) (k : String)
    (h : (mm.modules k).isSome = true) :
    ((startModulesStep E mm m).1.modules k).isSome = true := by
  unfold startModulesStep
  simp only
  split
  · exact h
  · split
    · exact h
    · split
      · exact h
      · split
        · exact h
        · exact isSome_update_some _ _ _ _ h

theorem startModulesStep_success (hl : LoaderKeeps E) (mm : MainModule L T) (m : agent.Module)
    (h : (startModulesStep E mm m).2 = none) :
    (E.Get (startModulesStep E mm m).1.loader m.Name).isSome = true ∧
    (startModulesStep E mm m).1.modules m.Name = some (getModuleConfig m) := by
  unfold startModulesStep at h ⊢
  simp only at h ⊢
  split at h
  · simp at h
  · rename_i s hnew
    split at h
    · simp at h
    · rename_i hget
      split at h
      · simp at h
      · rename_i hadd
        split at h
        · simp at h
        · rename_i hst
          rw [if_neg hget, if_neg hadd]
          simp only [hst]
          refine ⟨?_, by simp [modulesSet]⟩
          have hok : (E.Add mm.loader m.Name s).1 = true := by
            simpa [loaderAdd] using hadd
          exact hl.keep_start _ _ _ (hl.get_add _ _ _ hok)

theorem startModulesStep_rejected (mm : MainModule L T) (m : agent.Module)
    (h : (E.Get mm.loader m.Name).isSome = true) :
    (startModulesStep E mm m).1 = mm ∧ ∃ e, (startModulesStep E mm m).2 = some e := by
  unfold startModulesStep
  simp only
  split
  · exact ⟨rfl, _, rfl⟩
  · rw [if_pos h]
    exact ⟨rfl, _, rfl⟩

theorem stopModulesStep_keeps_loader (hl : LoaderKeeps E) (mm : MainModule L T)
    (m : agent.Module) (k : String) (hk : k ≠ m.Name) (h : (E.Get mm.loader k).isSome = true) :
    (E.Get (stopModulesStep E mm m).1.loader k).isSome = true := by
  unfold stopModulesStep
  simp only
  split
  · exact h
  · split
    · exact hl.keep_stop _ _ _ hk h
    · split
      · exact hl.keep_del _ _ _ hk (hl.keep_stop _ _ _ hk h)
      · exact hl.keep_del _ _ _ hk (hl.keep_stop _ _ _ hk h)

theorem stopModulesStep_keeps_modules (mm : MainModule L T) (m : agent.Module) (k : String)
    (hk : k ≠ m.Name) :
    (stopModulesStep E mm m).1.modules k = mm.modules k := by
  unfold stopModulesStep
  simp only
  split
  · rfl
  · split
    · rfl
    · split
      · rfl
      · exact Function.update_noteq hk _ _

theorem updateModulesStep_keeps_loader (hl : LoaderKeeps E) (mm : MainModule L T)
    (m : agent.Module) (k : String) (hk : k ≠ m.Name) (h : (E.Get mm.loader k).isSome = true) :
    (E.Get (updateModulesStep E mm m).1.loader k).isSome = true := by
  have hd := hl.keep_del _ m.Name _ hk (hl.keep_stop _ m.Name _ hk h)
  unfold updateModulesStep
  simp only
  split
  · exact h
  · split
    · exact hl.keep_stop _ _ _ hk h
    · split
      · exact hd
      · split
        · exact hd
        · split
          · exact hl.keep_add _ _ _ _ hd
          · split
            · exact hl.keep_start _ _ _ (hl.keep_add _ _ _ _ hd)
            · exact hl.keep_start _ _ _ (hl.keep_add _ _ _ _ hd)

theorem updateModulesStep_keeps_modules (mm : MainModule L T) (m : agent.Module) (k : String)
    (hk : k ≠ m.Name) :
    (updateModulesStep E mm m).1.modules k = mm.modules k := by
  unfold updateModulesStep
  simp only
  split
  · rfl
  · split
    · rfl
    · split
      · rfl
      · split
        · rfl
        · split
          · rfl
          · split
            · rfl
            · exact Function.update_noteq hk _ _

theorem mergeConfigItem_loader (mm : MainModule L T) (id : String) (mc : loader.ModuleConfig) :
    (mergeConfigItem mm id mc).loader = mm.loader := by
  unfold mergeConfigItem
  split <;> rfl

theorem updateConfigModulesStep_keeps_loader (hl : LoaderKeeps E) (mm : MainModule L T)
    (m : agent.Module) (k : String) (h : (E.Get mm.loader k).isSome = true) :
    (E.Get (updateConfigModulesStep E mm m).1.loader k).isSome = true := by
  unfold updateConfigModulesStep
  simp only
  split
  · exact h
  · simp only [controlMsg, modulesSet, mergeConfigItem_loader]
    exact hl.keep_control _ _ _ _ _ h

theorem updateConfigModulesStep_keeps_modules (mm : MainModule L T) (m : agent.Module)
    (k : String) (h : (mm.modules k).isSome = true) :
    ((updateConfigModulesStep E mm m).1.modules k).isSome = true := by
  unfold updateConfigModulesStep
  simp only
  split
  · exact h
  · simp only [controlMsg, modulesSet]
    apply isSome_update_some
    unfold mergeConfigItem
    split
    · exact h
    · exact isSome_update_some _ _ _ _ h

/-- The module named `id` is held: the loader finds it and the registry has an
entry for it. -/
theorem runSteps_keeps_held (hl : LoaderKeeps E) (id : String) (steps : List Step)
    (hns : ∀ s ∈ steps, s.stops id = false) (mm : MainModule L T)
    (h : (E.Get mm.loader id).isSome = true ∧ (mm.modules id).isSome = true) :
    (E.Get (runSteps E mm steps).loader id).isSome = true ∧
    ((runSteps E mm steps).modules id).isSome = true := by
  induction steps generalizing mm with
  | nil => exact h
  | cons st steps ih =>
    have hst : st.stops id = false := hns st (List.mem_cons_self _ _)
    have hrest : ∀ s ∈ steps, s.stops id = false :=
      fun s hs => hns s (List.mem_cons_of_mem _ hs)
    show _ ∧ ((runSteps E (Step.exec E mm st) steps).modules id).isSome = true
    apply ih hrest
    cases st with
    | start m =>
      exact ⟨startModulesStep_keeps_loader E hl mm m id h.1,
        startModulesStep_keeps_modules E mm m id h.2⟩
    | stop m =>
      have hk : id ≠ m.Name := fun he => by simp [Step.stops, he] at hst
      refine ⟨stopModulesStep_keeps_loader E hl mm m id hk h.1, ?_⟩
      show ((stopModulesStep E mm m).1.modules id).isSome = true
      rw [stopModulesStep_keeps_modules E mm m id hk]
      exact h.2
    | update m =>
      have hk : id ≠ m.Name := fun he => by simp [Step.stops, he] at hst
      refine ⟨updateModulesStep_keeps_loader E hl mm m id hk h.1, ?_⟩
      show ((updateModulesStep E mm m).1.modules id).isSome = true
      rw [updateModulesStep_keeps_modules E mm m id hk]
      exact h.2
    | updateConfig m =>
      exact ⟨updateConfigModulesStep_keeps_loader E hl mm m id h.1,
        updateConfigModulesStep_keeps_modules E mm m id h.2⟩
    | sendStatus dst =>
      obtain ⟨h1, h2, _⟩ := sendStatusModules_frame E mm dst
      show (E.Get (sendStatusModules E mm dst).1.loader id).isSome = true ∧
        ((sendStatusModules E mm dst).1.modules id).isSome = true
      rw [h1, h2]
      exact h

theorem stopModulesStep_success (mm mm1 : MainModule L T) (m : agent.Module)
    (h : stopModulesStep E mm m = (mm1, none)) :
    mm1.trace = mm.trace ++ [Event.loaderStop m.Name none, Event.loaderDel m.Name true,
      Event.modulesDelete m.Name] ∧
    mm1.modules = Function.update mm.modules m.Name none := by
  unfold stopModulesStep at h
  simp only at h
  split at h
  · simp at h
  · split at h
    · simp at h
    · rename_i hstop
      split at h
      · simp at h
      · rename_i hdel
        have hdel1 : (E.Del (E.Stop mm.loader m.Name).2 m.Name).1 = true := by
          simpa [loaderDel, loaderStop] using hdel
        have hstop1 : (E.Stop mm.loader m.Name).1 = none := by
          simpa [loaderStop] using hstop
        have h1 := (Prod.mk.inj h).1
        subst h1
        simp [modulesDelete, loaderDel, loaderStop, hdel1, hstop1]

theorem stopModulesLoop_success (pre : List agent.Module) (mm mm1 : MainModule L T)
    (h : stopModulesLoop E mm pre = (mm1, none)) :
    mm1.trace = mm.trace ++ stopEvents pre ∧
    ∀ k, mm1.modules k = if k ∈ pre.map (fun p => p.Name) then none else mm.modules k := by
  induction pre generalizing mm with
  | nil =>
    simp only [stopModulesLoop, forEachModule, Prod.mk.injEq, and_true] at h
    subst h
    simp [stopEvents]
  | cons p pre ih =>
    simp only [stopModulesLoop, forEachModule] at h
    rcases hb : stopModulesStep E mm p with ⟨mm2, _ | e⟩
    · rw [hb] at h
      obtain ⟨ht, hm⟩ := stopModulesStep_success E mm mm2 p hb
      obtain ⟨ht2, hm2⟩ := ih mm2 h
      refine ⟨by rw [ht2, ht]; simp [stopEvents], ?_⟩
      intro k
      rw [hm2 k, hm]
      by_cases hk : k = p.Name
      · subst hk
        simp
      · simp [hk, Function.update_noteq hk]
    · rw [hb] at h
      simp at h

theorem stopModulesStep_not_found (mm : MainModule L T) (m : agent.Module)
    (h : (E.Get mm.loader m.Name).isNone = true) :
    stopModulesStep E mm m = (mm, some ("module " ++ m.Name ++ " not found")) := by
  unfold stopModulesStep
  simp only
  rw [if_pos h]

/-! ### The events of a batch -/

theorem forEachModule_changes
    (body : MainModule L T → agent.Module → MainModule L T × Option String)
    (hbody : ∀ mm m, ∃ evs, (body mm m).1.trace = mm.trace ++ evs ∧
      ∀ e ∈ evs, Event.isChange e = true)
    (mm : MainModule L T) (l : List agent.Module) :
    ∃ evs, (forEachModule body mm l).1.trace = mm.trace ++ evs ∧
      ∀ e ∈ evs, Event.isChange e = true := by
  induction l generalizing mm with
  | nil => exact ⟨[], by simp [forEachModule], by simp⟩
  | cons m l ih =>
    obtain ⟨evs1, h1, h2⟩ := hbody mm m
    simp only [forEachModule]
    rcases hb : body mm m with ⟨mm1, _ | e⟩
    · rw [hb] at h1
      obtain ⟨evs2, h3, h4⟩ := ih mm1
      refine ⟨evs1 ++ evs2, ?_, ?_⟩
      · simp only [h3]
        rw [h1, List.append_assoc]
      · intro ev hev
        rcases List.mem_append.mp hev with h | h
        · exact h2 ev h
        · exact h4 ev h
    · rw [hb] at h1
      exact ⟨evs1, h1, h2⟩

theorem startModulesStep_changes (mm : MainModule L T) (m : agent.Module) :
    ∃ evs, (startModulesStep E mm m).1.trace = mm.trace ++ evs ∧
      ∀ e ∈ evs, Event.isChange e = true := by
  unfold startModulesStep
  simp only
  split
  · exact ⟨[], by simp, by simp⟩
  · split
    · exact ⟨[], by simp, by simp⟩
    · split
      · exact ⟨[_], rfl, by simp [Event.isChange]⟩
      · split
        · exact ⟨_, by simp only [loaderStart, loaderAdd, List.append_assoc]; rfl, by simp [Event.isChange]⟩
        · exact ⟨_, by simp only [modulesSet, loaderStart, loaderAdd, List.append_assoc]; rfl,
            by simp [Event.isChange]⟩

theorem stopModulesStep_changes (mm : MainModule L T) (m : agent.Module) :
    ∃ evs, (stopModulesStep E mm m).1.trace = mm.trace ++ evs ∧
      ∀ e ∈ evs, Event.isChange e = true := by
  unfold stopModulesStep
  simp only
  split
  · exact ⟨[], by simp, by simp⟩
  · split
    · exact ⟨[_], rfl, by simp [Event.isChange]⟩
    · split
      · exact ⟨_, by simp only [loaderStop, loaderDel, List.append_assoc]; rfl, by simp [Event.isChange]⟩
      · exact ⟨_, by simp only [modulesDelete, loaderStop, loaderDel, List.append_assoc]; rfl,
          by simp [Event.isChange]⟩

theorem updateModulesStep_changes (mm : MainModule L T) (m : agent.Module) :
    ∃ evs, (updateModulesStep E mm m).1.trace = mm.trace ++ evs ∧
      ∀ e ∈ evs, Event.isChange e = true := by
  unfold updateModulesStep
  simp only
  split
  · exact ⟨[], by simp, by simp⟩
  · split
    · exact ⟨[_], rfl, by simp [Event.isChange]⟩
    · split
      · exact ⟨_, by simp only [loaderStop, loaderDel, List.append_assoc]; rfl, by simp [Event.isChange]⟩
      · split
        · exact ⟨_, by simp only [loaderStop, loaderDel, List.append_assoc]; rfl, by simp [Event.isChange]⟩
        · split
          · exact ⟨_, by simp only [loaderStop, loaderDel, loaderAdd, List.append_assoc]; rfl,
              by simp [Event.isChange]⟩
          · split
            · exact ⟨_, by simp only [loaderStop, loaderDel, loaderAdd, loaderStart, List.append_assoc]; rfl,
                by simp [Event.isChange]⟩
            · exact ⟨_, by simp only [modulesSet, loaderStop, loaderDel, loaderAdd, loaderStart, List.append_assoc]; rfl,
                by simp [Event.isChange]⟩

theorem updateConfigModulesStep_changes (mm : MainModule L T) (m : agent.Module) :
    ∃ evs, (updateConfigModulesStep E mm m).1.trace = mm.trace ++ evs ∧
      ∀ e ∈ evs, Event.isChange e = true := by
  unfold updateConfigModulesStep
  simp only
  split
  · exact ⟨[], by simp, by simp⟩
  · unfold mergeConfigItem
    split
    · exact ⟨_, by simp only [controlMsg, modulesSet, List.append_assoc]; rfl, by simp [Event.isChange]⟩
    · exact ⟨_, by simp only [controlMsg, modulesSet, List.append_assoc]; rfl, by simp [Event.isChange]⟩

theorem deferSendStatus_trace (dst : String) (mm : MainModule L T)
    (body : MainModule L T × Option String)
    (hbody : ∃ evs, body.1.trace = mm.trace ++ evs ∧ ∀ e ∈ evs, Event.isChange e = true) :
    ∃ changes sends, (deferSendStatus E dst body).1.trace
        = mm.trace ++ changes ++ Event.sendStatusModules dst :: sends ∧
      (∀ e ∈ changes, Event.isChange e = true) ∧ sends.length ≤ 1 ∧
      ∀ e ∈ sends, ∃ d r, e = Event.sendDataTo dst d r := by
  obtain ⟨evs, h1, h2⟩ := hbody
  obtain ⟨_, _, sends, h3, h4, h5⟩ := sendStatusModules_frame E body.1 dst
  refine ⟨evs, sends, ?_, h2, h4, h5⟩
  rw [deferSendStatus_fst, h3, h1]

/-! ### The status list -/

theorem getStatusModulesLoop_eq (mm : MainModule L T) (ids : List String)
    (acc : List agent.ModuleStatus) :
    getStatusModulesLoop E mm ids acc = acc ++ ids.filterMap (joinStatus E mm) := by
  induction ids generalizing acc with
  | nil => simp [getStatusModulesLoop]
  | cons id ids ih =>
    simp only [getStatusModulesLoop, List.filterMap_cons, joinStatus]
    cases hg : E.Get mm.loader id with
    | none => simp [ih]
    | some ms =>
      cases hm : mm.modules id with
      | none => simp [ih]
      | some mc => simp [ih]

theorem joinStatus_of_not_inBoth (mm : MainModule L T) (id : String)
    (h : inBoth E mm id = false) : joinStatus E mm id = none := by
  cases hg : E.Get mm.loader id <;> cases hm : mm.modules id <;>
    simp_all [joinStatus, inBoth]

theorem joinStatus_of_inBoth (mm : MainModule L T) (id : String)
    (h : inBoth E mm id = true) :
    ∃ ms mc, mm.modules id = some mc ∧ joinStatus E mm id = some (moduleStatusOf E mc ms) := by
  cases hg : E.Get mm.loader id with
  | none => simp [inBoth, hg] at h
  | some ms =>
    cases hm : mm.modules id with
    | none => simp [inBoth, hm] at h
    | some mc => exact ⟨ms, mc, rfl, by simp [joinStatus, hg, hm]⟩

theorem joinStatus_names (mm : MainModule L T) (ids : List String) :
    (ids.filterMap (joinStatus E mm)).map (fun st => st.Name)
      = (ids.filter (inBoth E mm)).filterMap
          (fun id => (mm.modules id).map (fun mc => mc.Name)) := by
  induction ids with
  | nil => rfl
  | cons id ids ih =>
    cases hb : inBoth E mm id with
    | false =>
      rw [List.filterMap_cons_none (joinStatus_of_not_inBoth E mm id hb),
        List.filter_cons_of_neg (by simp [hb])]
      exact ih
    | true =>
      obtain ⟨ms, mc, hm, hj⟩ := joinStatus_of_inBoth E mm id hb
      rw [List.filterMap_cons_some hj, List.filter_cons_of_pos hb, List.map_cons,
        List.filterMap_cons_some (by rw [hm]; rfl), ih]
      rfl

theorem registered_names (mm : MainModule L T)
    (hnames : ∀ id mc, mm.modules id = some mc → mc.Name = id) (ids : List String) :
    (ids.filter (inBoth E mm)).filterMap (fun id => (mm.modules id).map (fun mc => mc.Name))
      = ids.filter (inBoth E mm) := by
  induction ids with
  | nil => rfl
  | cons id ids ih =>
    simp only [List.filter_cons]
    by_cases hb : inBoth E mm id = true
    · rw [if_pos hb]
      cases hm : mm.modules id with
      | none => simp [inBoth, hm] at hb
      | some mc =>
        simp only [List.filterMap_cons, hm, Option.map_some']
        rw [ih, hnames id mc hm]
    · rw [if_neg hb]
      exact ih

/-! ### Registry transitions -/

theorem monotone2_started : Monotone2 StartedThenSet :=
  fun _ pre evs suf h => List.IsInfix.trans h (List.infix_append pre evs suf)

theorem monotone2_stopped : Monotone2 StoppedThenDeleted :=
  fun _ pre evs suf h => List.IsInfix.trans h (List.infix_append pre evs suf)

theorem monotone2_config : Monotone2 ConfigUpdated :=
  fun _ pre evs suf ⟨p, h⟩ => ⟨p, List.IsInfix.trans h (List.infix_append pre evs suf)⟩

theorem monotone2_false : Monotone2 (fun _ _ => False) :=
  fun _ _ _ _ h => h

theorem transitions_of_unchanged (A B : String → List Event → Prop) (mm mm1 : MainModule L T)
    (ht : ∃ evs, mm1.trace = mm.trace ++ evs) (hm : mm1.modules = mm.modules) :
    Transitions A B mm mm1 := by
  obtain ⟨evs, ht⟩ := ht
  refine ⟨evs, ht, fun n => ⟨?_, ?_⟩⟩
  · intro h0 h1
    rw [hm, h0] at h1
    simp at h1
  · intro h0 h1
    rw [hm] at h1
    rw [h1] at h0
    simp at h0

theorem transitions_of_set (A B : String → List Event → Prop) (mm mm1 : MainModule L T)
    (id : String) (v : loader.ModuleConfig) (evs : List Event)
    (ht : mm1.trace = mm.trace ++ evs)
    (hm : mm1.modules = Function.update mm.modules id (some v)) (hA : A id evs) :
    Transitions A B mm mm1 := by
  refine ⟨evs, ht, fun n => ⟨?_, ?_⟩⟩
  · intro h0 h1
    by_cases hn : n = id
    · rw [hn]
      exact hA
    · rw [hm, Function.update_noteq hn, h0] at h1
      simp at h1
  · intro h0 h1
    by_cases hn : n = id
    · rw [hm, hn, Function.update_same] at h1
      simp at h1
    · rw [hm, Function.update_noteq hn] at h1
      rw [h1] at h0
      simp at h0

theorem transitions_of_delete (A B : String → List Event → Prop) (mm mm1 : MainModule L T)
    (id : String) (evs : List Event)
    (ht : mm1.trace = mm.trace ++ evs)
    (hm : mm1.modules = Function.update mm.modules id none) (hB : B id evs) :
    Transitions A B mm mm1 := by
  refine ⟨evs, ht, fun n => ⟨?_, ?_⟩⟩
  · intro h0 h1
    by_cases hn : n = id
    · rw [hm, hn, Function.update_same] at h1
      simp at h1
    · rw [hm, Function.update_noteq hn, h0] at h1
      simp at h1
  · intro h0 h1
    by_cases hn : n = id
    · rw [hn]
      exact hB
    · rw [hm, Function.update_noteq hn] at h1
      rw [h1] at h0
      simp at h0

theorem transitions_trans (A B : String → List Event → Prop) (hA : Monotone2 A)
    (hB : Monotone2 B) (mm mm1 mm2 : MainModule L T)
    (h1 : Transitions A B mm mm1) (h2 : Transitions A B mm1 mm2) :
    Transitions A B mm mm2 := by
  obtain ⟨evs1, ht1, hp1⟩ := h1
  obtain ⟨evs2, ht2, hp2⟩ := h2
  refine ⟨evs1 ++ evs2, by rw [ht2, ht1, List.append_assoc], fun n => ⟨?_, ?_⟩⟩
  · intro h0 hlast
    cases hmid : mm1.modules n with
    | none =>
      have := (hp2 n).1 hmid hlast
      simpa using hA n evs1 evs2 [] this
    | some v =>
      have := (hp1 n).1 h0 (by rw [hmid]; rfl)
      simpa using hA n [] evs1 evs2 this
  · intro h0 hlast
    cases hmid : mm1.modules n with
    | none =>
      have := (hp1 n).2 h0 hmid
      simpa using hB n [] evs1 evs2 this
    | some v =>
      have := (hp2 n).2 (by rw [hmid]; rfl) hlast
      simpa using hB n evs1 evs2 [] this

theorem forEachModule_transitions (A B : String → List Event → Prop) (hA : Monotone2 A)
    (hB : Monotone2 B)
    (body : MainModule L T → agent.Module → MainModule L T × Option String)
    (hbody : ∀ mm m, Transitions A B mm (body mm m).1)
    (mm : MainModule L T) (l : List agent.Module) :
    Transitions A B mm (forEachModule body mm l).1 := by
  induction l generalizing mm with
  | nil => exact transitions_of_unchanged A B mm mm ⟨[], by simp⟩ rfl
  | cons m l ih =>
    have hstep := hbody mm m
    simp only [forEachModule]
    rcases hb : body mm m with ⟨mm1, _ | e⟩
    · rw [hb] at hstep
      exact transitions_trans A B hA hB mm mm1 _ hstep (ih mm1)
    · rw [hb] at hstep
      exact hstep

theorem deferSendStatus_transitions (A B : String → List Event → Prop) (hA : Monotone2 A)
    (hB : Monotone2 B) (dst : String) (mm : MainModule L T)
    (body : MainModule L T × Option String) (h : Transitions A B mm body.1) :
    Transitions A B mm (deferSendStatus E dst body).1 := by
  obtain ⟨hm, _, sends, ht, _, _⟩ := sendStatusModules_frame E body.1 dst
  apply transitions_trans A B hA hB mm body.1 _ h
  rw [deferSendStatus_fst]
  exact transitions_of_unchanged A B _ _ ⟨_, ht⟩ hm

theorem startModulesStep_transitions (mm : MainModule L T) (m : agent.Module) :
    Transitions StartedThenSet (fun _ _ => False) mm (startModulesStep E mm m).1 := by
  unfold startModulesStep
  simp only
  split
  · exact transitions_of_unchanged _ _ _ _ ⟨[], by simp⟩ rfl
  · rename_i s hnew
    split
    · exact transitions_of_unchanged _ _ _ _ ⟨[], by simp⟩ rfl
    · split
      · exact transitions_of_unchanged _ _ _ _ ⟨[_], rfl⟩ rfl
      · rename_i hadd
        have hadd1 : (E.Add mm.loader m.Name s).1 = true := by
          simpa [loaderAdd] using hadd
        split
        · exact transitions_of_unchanged _ _ _ _
            ⟨_, by simp only [loaderStart, loaderAdd, List.append_assoc]; rfl⟩ rfl
        · rename_i hst
          have hst1 : (E.Start (E.Add mm.loader m.Name s).2 m.Name).1 = none := by
            simpa [loaderStart, loaderAdd] using hst
          refine transitions_of_set _ _ _ _ m.Name (getModuleConfig m)
            [Event.loaderAdd m.Name true, Event.loaderStart m.Name none,
              Event.modulesSet m.Name] ?_ rfl (List.infix_refl _)
          simp [modulesSet, loaderStart, loaderAdd, hadd1, hst1]

theorem updateModulesStep_transitions (mm : MainModule L T) (m : agent.Module) :
    Transitions StartedThenSet (fun _ _ => False) mm (updateModulesStep E mm m).1 := by
  unfold updateModulesStep
  simp only
  split
  · exact transitions_of_unchanged _ _ _ _ ⟨[], by simp⟩ rfl
  · split
    · exact transitions_of_unchanged _ _ _ _ ⟨[_], rfl⟩ rfl
    · split
      · exact transitions_of_unchanged _ _ _ _
          ⟨_, by simp only [loaderStop, loaderDel, List.append_assoc]; rfl⟩ rfl
      · split
        · exact transitions_of_unchanged _ _ _ _
            ⟨_, by simp only [loaderStop, loaderDel, List.append_assoc]; rfl⟩ rfl
        · rename_i s hnew
          split
          · exact transitions_of_unchanged _ _ _ _
              ⟨_, by simp only [loaderStop, loaderDel, loaderAdd, List.append_assoc]; rfl⟩ rfl
          · rename_i hadd
            have hadd1 :
                (E.Add (E.Del (E.Stop mm.loader m.Name).2 m.Name).2 m.Name s).1 = true := by
              simpa [loaderAdd, loaderDel, loaderStop] using hadd
            split
            · exact transitions_of_unchanged _ _ _ _
                ⟨_, by
                  simp only [loaderStop, loaderDel, loaderAdd, loaderStart, List.append_assoc]
                  rfl⟩ rfl
            · rename_i hst
              have hst1 : (E.Start
                  (E.Add (E.Del (E.Stop mm.loader m.Name).2 m.Name).2 m.Name s).2 m.Name).1
                    = none := by
                simpa [loaderStart, loaderAdd, loaderDel, loaderStop] using hst
              refine transitions_of_set _ _ _ _ m.Name (getModuleConfig m)
                [Event.loaderStop m.Name (E.Stop mm.loader m.Name).1,
                  Event.loaderDel m.Name (E.Del (E.Stop mm.loader m.Name).2 m.Name).1,
                  Event.loaderAdd m.Name true, Event.loaderStart m.Name none,
                  Event.modulesSet m.Name] ?_ rfl ?_
              · simp [modulesSet, loaderStart, loaderAdd, loaderDel, loaderStop, hadd1, hst1]
              · exact ⟨[_, _], [], rfl⟩

theorem updateConfigModulesStep_transitions (mm : MainModule L T) (m : agent.Module) :
    Transitions ConfigUpdated (fun _ _ => False) mm (updateConfigModulesStep E mm m).1 := by
  unfold updateConfigModulesStep
  simp only
  split
  · exact transitions_of_unchanged _ _ _ _ ⟨[], by simp⟩ rfl
  · unfold mergeConfigItem
    split
    · refine transitions_of_set _ _ _ _ m.Name (getModuleConfig m)
        [Event.modulesSet m.Name, Event.controlMsg m.Name "update_config"
          (getModuleConfig m).IConfigItem.CurrentConfig] ?_ rfl ⟨_, List.infix_refl _⟩
      simp [controlMsg, modulesSet]
    · refine transitions_of_set _ _ _ _ m.Name (getModuleConfig m)
        [Event.configItemOverwrite m.Name, Event.modulesSet m.Name,
          Event.controlMsg m.Name "update_config"
            (getModuleConfig m).IConfigItem.CurrentConfig] ?_ ?_ ⟨_, [_], [], rfl⟩
      · simp [controlMsg, modulesSet]
      · simp [controlMsg, modulesSet]

theorem stopModulesStep_transitions (mm : MainModule L T) (m : agent.Module) :
    Transitions (fun _ _ => False) StoppedThenDeleted mm (stopModulesStep E mm m).1 := by
  rcases hb : stopModulesStep E mm m with ⟨mm1, _ | e⟩
  · obtain ⟨ht, hm⟩ := stopModulesStep_success E mm mm1 m hb
    exact transitions_of_delete _ _ _ _ m.Name _ ht hm (List.infix_refl _)
  · have hkeep : (stopModulesStep E mm m).1.modules = mm.modules := by
      unfold stopModulesStep at hb ⊢
      simp only at hb ⊢
      split
      · rfl
      · split
        · rfl
        · split
          · rfl
          · rename_i h1 _ h2 h3
            rw [if_neg h1] at hb
            simp only [h2, if_neg h3] at hb
            simp at hb
    obtain ⟨evs, ht, _⟩ := stopModulesStep_changes E mm m
    rw [hb] at hkeep ht
    exact transitions_of_unchanged _ _ _ _ ⟨evs, ht⟩ hkeep

theorem serveCommand_transitions (mm : MainModule L T) (c : Command) :
    ∃ evs, (serveCommand E mm c).1.trace = mm.trace ++ evs ∧
      ∀ n, (mm.modules n = none → ((serveCommand E mm c).1.modules n).isSome = true →
          StartedThenSet n evs ∨
            ((∃ src payload, c = Command.UpdateConfigModules src payload) ∧
              ConfigUpdated n evs)) ∧
        ((mm.modules n).isSome = true → (serveCommand E mm c).1.modules n = none →
          StoppedThenDeleted n evs) := by
  cases c with
  | StartModules src payload =>
    have h : Transitions StartedThenSet (fun _ _ => False) mm
        (serveStartModules E mm src payload).1 := by
      apply deferSendStatus_transitions E _ _ monotone2_started monotone2_false
      split
      · exact transitions_of_unchanged _ _ _ _ ⟨[], by simp⟩ rfl
      · exact forEachModule_transitions _ _ monotone2_started monotone2_false _
          (startModulesStep_transitions E) mm _
    obtain ⟨evs, ht, hp⟩ := h
    exact ⟨evs, ht, fun n => ⟨fun h0 h1 => Or.inl ((hp n).1 h0 h1),
      fun h0 h1 => ((hp n).2 h0 h1).elim⟩⟩
  | StopModules src payload =>
    have h : Transitions (fun _ _ => False) StoppedThenDeleted mm
        (serveStopModules E mm src payload).1 := by
      apply deferSendStatus_transitions E _ _ monotone2_false monotone2_stopped
      split
      · exact transitions_of_unchanged _ _ _ _ ⟨[], by simp⟩ rfl
      · exact forEachModule_transitions _ _ monotone2_false monotone2_stopped _
          (stopModulesStep_transitions E) mm _
    obtain ⟨evs, ht, hp⟩ := h
    exact ⟨evs, ht, fun n => ⟨fun h0 h1 => ((hp n).1 h0 h1).elim,
      fun h0 h1 => (hp n).2 h0 h1⟩⟩
  | UpdateModules src payload =>
    have h : Transitions StartedThenSet (fun _ _ => False) mm
        (serveUpdateModules E mm src payload).1 := by
      apply deferSendStatus_transitions E _ _ monotone2_started monotone2_false
      split
      · exact transitions_of_unchanged _ _ _ _ ⟨[], by simp⟩ rfl
      · exact forEachModule_transitions _ _ monotone2_started monotone2_false _
          (updateModulesStep_transitions E) mm _
    obtain ⟨evs, ht, hp⟩ := h
    exact ⟨evs, ht, fun n => ⟨fun h0 h1 => Or.inl ((hp n).1 h0 h1),
      fun h0 h1 => ((hp n).2 h0 h1).elim⟩⟩
  | UpdateConfigModules src payload =>
    have h : Transitions ConfigUpdated (fun _ _ => False) mm
        (serveUpdateConfigModules E mm src payload).1 := by
      apply deferSendStatus_transitions E _ _ monotone2_config monotone2_false
      split
      · exact transitions_of_unchanged _ _ _ _ ⟨[], by simp⟩ rfl
      · exact forEachModule_transitions _ _ monotone2_config monotone2_false _
          (updateConfigModulesStep_transitions E) mm _
    obtain ⟨evs, ht, hp⟩ := h
    exact ⟨evs, ht, fun n => ⟨fun h0 h1 => Or.inr ⟨⟨src, payload, rfl⟩, (hp n).1 h0 h1⟩,
      fun h0 h1 => ((hp n).2 h0 h1).elim⟩⟩

/-! ### UpdateModules against stop-then-start -/

theorem updateModulesStep_vs_stopThenStart
    (hdel : ∀ l id, (E.Del l id).1 = true → E.Get (E.Del l id).2 id = none)
    (mm : MainModule L T) (m : agent.Module) :
    (updateModulesStep E mm m).2 = (stopThenStartStep E mm m).2 ∧
    (updateModulesStep E mm m).1.loader = (stopThenStartStep E mm m).1.loader ∧
    (∀ k, k ≠ m.Name →
      (updateModulesStep E mm m).1.modules k = (stopThenStartStep E mm m).1.modules k) ∧
    ((updateModulesStep E mm m).2 = none →
      (updateModulesStep E mm m).1.modules = (stopThenStartStep E mm m).1.modules) := by
  unfold stopThenStartStep updateModulesStep stopModulesStep
  simp only
  by_cases hget : (E.Get mm.loader m.Name).isNone = true
  · simp [hget]
  · rw [if_neg hget, if_neg hget]
    cases hstop : (E.Stop mm.loader m.Name).1 with
    | some e => simp [loaderStop, hstop]
    | none =>
      cases hd : (E.Del (E.Stop mm.loader m.Name).2 m.Name).1 with
      | false => simp [loaderStop, loaderDel, hstop, hd]
      | true =>
        have hgone := hdel (E.Stop mm.loader m.Name).2 m.Name hd
        unfold startModulesStep
        cases hnew : E.NewState (getModuleConfig m) (getModuleItem m) with
        | error e =>
          simp [loaderStop, loaderDel, modulesDelete, hstop, hd, hnew]
          intro k hk
          rw [Function.update_noteq hk]
        | ok s =>
          cases hadd : (E.Add (E.Del (E.Stop mm.loader m.Name).2 m.Name).2 m.Name s).1 with
          | false =>
            simp [loaderStop, loaderDel, loaderAdd, modulesDelete, hstop, hd, hnew, hgone, hadd]
            intro k hk
            rw [Function.update_noteq hk]
          | true =>
            cases hst : (E.Start
                (E.Add (E.Del (E.Stop mm.loader m.Name).2 m.Name).2 m.Name s).2 m.Name).1 with
            | some e =>
              simp [loaderStop, loaderDel, loaderAdd, loaderStart, modulesDelete, hstop, hd,
                hnew, hgone, hadd, hst]
              intro k hk
              rw [Function.update_noteq hk]
            | none =>
              simp [loaderStop, loaderDel, loaderAdd, loaderStart, modulesDelete, modulesSet,
                hstop, hd, hnew, hgone, hadd, hst]

/-! ### Every command is a sequence of steps -/

theorem runSteps_append (mm : MainModule L T) (xs ys : List Step) :
    runSteps E mm (xs ++ ys) = runSteps E (runSteps E mm xs) ys := by
  simp [runSteps, List.foldl_append]

theorem forEachModule_runSteps
    (body : MainModule L T → agent.Module → MainModule L T × Option String)
    (mk : agent.Module → Step)
    (hmk : ∀ mm m, Step.exec E mm (mk m) = (body mm m).1)
    (mm : MainModule L T) (l : List agent.Module) :
    ∃ done, done <+: l ∧ (forEachModule body mm l).1 = runSteps E mm (done.map mk) := by
  induction l generalizing mm with
  | nil => exact ⟨[], List.prefix_refl _, rfl⟩
  | cons m l ih =>
    simp only [forEachModule]
    rcases hb : body mm m with ⟨mm1, _ | e⟩
    · obtain ⟨done, hd, hr⟩ := ih mm1
      refine ⟨m :: done, (List.prefix_cons_inj m).mpr hd, ?_⟩
      have h1 : Step.exec E mm (mk m) = mm1 := by rw [hmk, hb]
      simp only [hr, List.map_cons, runSteps, List.foldl_cons, h1]
    · refine ⟨[m], ?_, ?_⟩
      · exact ⟨l, rfl⟩
      · have h1 : Step.exec E mm (mk m) = mm1 := by rw [hmk, hb]
        simp [runSteps, h1]

theorem deferSendStatus_runSteps (dst : String) (mm : MainModule L T)
    (body : MainModule L T × Option String) (steps : List Step)
    (h : body.1 = runSteps E mm steps) :
    (deferSendStatus E dst body).1 = runSteps E mm (steps ++ [Step.sendStatus dst]) := by
  rw [deferSendStatus_fst, runSteps_append, ← h]
  rfl

theorem serveCommand_runSteps (mm : MainModule L T) (c : Command) :
    ∃ steps, (serveCommand E mm c).1 = runSteps E mm steps ∧
      ∀ id, (∃ st ∈ steps, Step.stops id st = true) → Command.stopsName E id c := by
  cases c with
  | StartModules src payload =>
    simp only [serveCommand, serveStartModules]
    cases hdec : E.Unmarshal payload with
    | error e =>
      exact ⟨[Step.sendStatus src], deferSendStatus_runSteps E src mm _ [] rfl,
        by simp [Step.stops]⟩
    | ok l =>
      obtain ⟨done, _, hr⟩ :=
        forEachModule_runSteps E (startModulesStep E) Step.start (fun _ _ => rfl) mm l
      refine ⟨done.map Step.start ++ [Step.sendStatus src],
        deferSendStatus_runSteps E src mm _ _ hr, ?_⟩
      rintro id ⟨st, hst, hs⟩
      simp only [List.mem_append, List.mem_map, List.mem_singleton] at hst
      rcases hst with ⟨m, _, rfl⟩ | rfl <;> simp [Step.stops] at hs
  | StopModules src payload =>
    simp only [serveCommand, serveStopModules]
    cases hdec : E.Unmarshal payload with
    | error e =>
      exact ⟨[Step.sendStatus src], deferSendStatus_runSteps E src mm _ [] rfl,
        by simp [Step.stops]⟩
    | ok l =>
      obtain ⟨done, hd, hr⟩ :=
        forEachModule_runSteps E (stopModulesStep E) Step.stop (fun _ _ => rfl) mm l
      refine ⟨done.map Step.stop ++ [Step.sendStatus src],
        deferSendStatus_runSteps E src mm _ _ hr, ?_⟩
      rintro id ⟨st, hst, hs⟩
      simp only [List.mem_append, List.mem_map, List.mem_singleton] at hst
      rcases hst with ⟨m, hm, rfl⟩ | rfl
      · refine ⟨l, hdec, m, List.IsPrefix.subset hd hm, ?_⟩
        simpa [Step.stops] using hs
      · simp [Step.stops] at hs
  | UpdateModules src payload =>
    simp only [serveCommand, serveUpdateModules]
    cases hdec : E.Unmarshal payload with
    | error e =>
      exact ⟨[Step.sendStatus src], deferSendStatus_runSteps E src mm _ [] rfl,
        by simp [Step.stops]⟩
    | ok l =>
      obtain ⟨done, hd, hr⟩ :=
        forEachModule_runSteps E (updateModulesStep E) Step.update (fun _ _ => rfl) mm l
      refine ⟨done.map Step.update ++ [Step.sendStatus src],
        deferSendStatus_runSteps E src mm _ _ hr, ?_⟩
      rintro id ⟨st, hst, hs⟩
      simp only [List.mem_append, List.mem_map, List.mem_singleton] at hst
      rcases hst with ⟨m, hm, rfl⟩ | rfl
      · refine ⟨l, hdec, m, List.IsPrefix.subset hd hm, ?_⟩
        simpa [Step.stops] using hs
      · simp [Step.stops] at hs
  | UpdateConfigModules src payload =>
    simp only [serveCommand, serveUpdateConfigModules]
    cases hdec : E.Unmarshal payload with
    | error e =>
      exact ⟨[Step.sendStatus src], deferSendStatus_runSteps E src mm _ [] rfl,
        by simp [Step.stops]⟩
    | ok l =>
      obtain ⟨done, _, hr⟩ :=
        forEachModule_runSteps E (updateConfigModulesStep E) Step.updateConfig
          (fun _ _ => rfl) mm l
      refine ⟨done.map Step.updateConfig ++ [Step.sendStatus src],
        deferSendStatus_runSteps E src mm _ _ hr, ?_⟩
      rintro id ⟨st, hst, hs⟩
      simp only [List.mem_append, List.mem_map, List.mem_singleton] at hst
      rcases hst with ⟨m, _, rfl⟩ | rfl <;> simp [Step.stops] at hs

theorem runCommands_runSteps (cmds : List Command) (mm : MainModule L T) :
    ∃ steps, runCommands E mm cmds = runSteps E mm steps ∧
      ∀ id, (∃ st ∈ steps, Step.stops id st = true) →
        ∃ c ∈ cmds, Command.stopsName E id c := by
  induction cmds generalizing mm with
  | nil => exact ⟨[], rfl, by simp⟩
  | cons c cmds ih =>
    obtain ⟨s1, h1, hs1⟩ := serveCommand_runSteps E mm c
    obtain ⟨s2, h2, hs2⟩ := ih (serveCommand E mm c).1
    refine ⟨s1 ++ s2, ?_, ?_⟩
    · simp only [runCommands]
      rw [h2, h1, runSteps_append]
    · rintro id ⟨st, hst, hs⟩
      rcases List.mem_append.mp hst with h | h
      · exact ⟨c, List.mem_cons_self _ _, hs1 id ⟨st, h, hs⟩⟩
      · obtain ⟨c2, hc2, hn⟩ := hs2 id ⟨st, h, hs⟩
        exact ⟨c2, List.mem_cons_of_mem _ hc2, hn⟩

end lemmas

/-! ### The signals of UpdateConfigModules -/

section signals

variable {L S T : Type} (E : Externals L S T)

theorem controlKeeps_found (hk : ControlKeeps E) (l : L) (id signal payload k : String) :
    (E.Get (E.ControlMsg l id signal payload) k).isSome = (E.Get l k).isSome := by
  have h := congrArg Option.isSome (hk.status_control l id signal payload k)
  simpa using h

theorem updateConfigModulesStep_unknown (mm : MainModule L T) (m : agent.Module)
    (h : (E.Get mm.loader m.Name).isSome = false) :
    updateConfigModulesStep E mm m = (mm, some ("module " ++ m.Name ++ " not found")) := by
  have hnone : (E.Get mm.loader m.Name).isNone = true := by
    cases hg : E.Get mm.loader m.Name with
    | none => rfl
    | some ms => rw [hg] at h; simp at h
  unfold updateConfigModulesStep
  simp only
  rw [if_pos hnone]

theorem updateConfigModulesStep_known (mm : MainModule L T) (m : agent.Module)
    (h : (E.Get mm.loader m.Name).isSome = true) :
    (updateConfigModulesStep E mm m).2 = none ∧
    (updateConfigModulesStep E mm m).1.loader
      = E.ControlMsg mm.loader m.Name "update_config" m.ConfigItem.CurrentConfig ∧
    ∃ pre, (updateConfigModulesStep E mm m).1.trace
        = mm.trace ++ (pre ++ [Event.modulesSet m.Name, configSignal m]) ∧
      (pre = [] ∨ pre = [Event.configItemOverwrite m.Name]) := by
  have hnone : ¬ (E.Get mm.loader m.Name).isNone = true := by
    cases hg : E.Get mm.loader m.Name with
    | none => rw [hg] at h; simp at h
    | some ms => simp
  unfold updateConfigModulesStep
  simp only
  rw [if_neg hnone]
  refine ⟨rfl, ?_, ?_⟩
  · simp only [controlMsg, modulesSet, mergeConfigItem_loader]
    rfl
  · unfold mergeConfigItem
    split
    · exact ⟨[], by simp [controlMsg, modulesSet, configSignal, getModuleConfig], Or.inl rfl⟩
    · exact ⟨[Event.configItemOverwrite m.Name],
        by simp [controlMsg, modulesSet, configSignal, getModuleConfig], Or.inr rfl⟩

theorem updateConfigModulesLoop_signals (l : List agent.Module) (mm : MainModule L T) :
    ∃ evs, (updateConfigModulesLoop E mm l).1.trace = mm.trace ++ evs ∧
      (∀ e ∈ evs, Event.isLoaderCall e = false) ∧
      (ControlKeeps E →
        evs.filter Event.isControl
          = (l.takeWhile (fun m => (E.Get mm.loader m.Name).isSome)).map configSignal ∧
        E.List (updateConfigModulesLoop E mm l).1.loader = E.List mm.loader ∧
        ∀ k, (E.Get (updateConfigModulesLoop E mm l).1.loader k).map E.GetStatus
          = (E.Get mm.loader k).map E.GetStatus) := by
  induction l generalizing mm with
  | nil =>
    exact ⟨[], by simp [updateConfigModulesLoop, forEachModule], by simp,
      fun _ => ⟨rfl, rfl, fun _ => rfl⟩⟩
  | cons m l ih =>
    cases hf : (E.Get mm.loader m.Name).isSome with
    | false =>
      have hstep := updateConfigModulesStep_unknown E mm m hf
      refine ⟨[], ?_, by simp, fun _ => ⟨?_, ?_, ?_⟩⟩
      · simp [updateConfigModulesLoop, forEachModule, hstep]
      · simp [List.takeWhile, hf]
      · simp [updateConfigModulesLoop, forEachModule, hstep]
      · intro k
        simp [updateConfigModulesLoop, forEachModule, hstep]
    | true =>
      obtain ⟨herr, hld, pre, htr, hpre⟩ := updateConfigModulesStep_known E mm m hf
      obtain ⟨evs2, ht2, hc2, hrest2⟩ := ih (updateConfigModulesStep E mm m).1
      have hloop : updateConfigModulesLoop E mm (m :: l)
          = updateConfigModulesLoop E (updateConfigModulesStep E mm m).1 l := by
        simp only [updateConfigModulesLoop, forEachModule]
        rcases hb : updateConfigModulesStep E mm m with ⟨mm1, _ | e⟩
        · rfl
        · rw [hb] at herr
          simp at herr
      rw [hloop]
      refine ⟨pre ++ [Event.modulesSet m.Name, configSignal m] ++ evs2, ?_, ?_, fun hk => ?_⟩
      · rw [ht2, htr]
        simp [List.append_assoc]
      · intro e he
        simp only [List.mem_append, List.mem_cons, List.mem_singleton, List.not_mem_nil,
          or_false] at he
        rcases he with (he | he | he) | he
        · rcases hpre with hp | hp
          · rw [hp] at he
            simp at he
          · rw [hp] at he
            simp only [List.mem_singleton] at he
            rw [he]
            rfl
        · rw [he]
          rfl
        · rw [he]
          rfl
        · exact hc2 e he
      · obtain ⟨hs2, hl2, hst2⟩ := hrest2 hk
        have hknown : (fun x : agent.Module =>
              (E.Get (updateConfigModulesStep E mm m).1.loader x.Name).isSome)
            = (fun x : agent.Module => (E.Get mm.loader x.Name).isSome) := by
          funext x
          rw [hld]
          exact controlKeeps_found E hk _ _ _ _ _
        refine ⟨?_, ?_, ?_⟩
        · rw [List.filter_append, List.filter_append, hs2, hknown]
          have hp0 : pre.filter Event.isControl = [] := by
            rcases hpre with hp | hp <;> rw [hp] <;> rfl
          rw [hp0]
          simp [List.takeWhile, hf, List.filter, Event.isControl, configSignal]
        · rw [hl2, hld]
          exact hk.list_control _ _ _ _
        · intro k
          rw [hst2 k, hld]
          exact hk.status_control _ _ _ _ k

theorem lookup_map_val {α β : Type} (l : List (String × α)) (k : String)
    (g : String × α → String × α) (f : α → β)
    (hg : ∀ p, (g p).1 = p.1 ∧ f (g p).2 = f p.2) :
    ((l.map g).lookup k).map f = (l.lookup k).map f := by
  induction l with
  | nil => rfl
  | cons p l ih =>
    obtain ⟨a, b⟩ := p
    have hp : g (a, b) = (a, (g (a, b)).2) := Prod.ext (hg (a, b)).1 rfl
    rw [List.map_cons, hp, lookup_cons_eq, lookup_cons_eq]
    by_cases hk : k = a
    · simp only [if_pos hk, Option.map_some', (hg (a, b)).2]
    · rw [if_neg hk, if_neg hk]
      exact ih

theorem tableExternals_controlKeeps (decode : List Nat → Except String (List agent.Module)) :
    ControlKeeps (tableExternals decode) where
  list_control := by
    intro l id signal payload
    simp only [tableExternals, TableLoader.ControlMsg, List.map_map]
    apply List.map_congr_left
    intro p _
    simp only [Function.comp]
    split <;> rfl
  status_control := by
    intro l id signal payload k
    simp only [tableExternals, TableLoader.ControlMsg, TableLoader.Get]
    apply lookup_map_val
    intro p
    split <;> exact ⟨rfl, rfl⟩

end signals

/-! ### Stop -/

section stopLemmas

variable {L S T : Type} (E : Externals L S T) (X : StopExternals L T)

theorem stopDelLoop_hasStopped (ids : List String) (mm : MainModule L T) :
    (stopDelLoop E mm ids).1.hasStopped = mm.hasStopped := by
  induction ids generalizing mm with
  | nil => rfl
  | cons id ids ih =>
    simp only [stopDelLoop]
    split
    · rfl
    · rw [ih]
      rfl

theorem stopRelease_success (mm mm1 : MainModule L T)
    (h : stopRelease X mm = some (mm1, none)) :
    mm1.hasStopped = mm.hasStopped ∧ mm1.modules = (fun _ => none) ∧
    mm1.proto = false ∧ mm1.socket = false := by
  unfold stopRelease at h
  simp only at h
  split at h
  · simp at h
  · rename_i mm2 hsent
    have hs2 : mm2.hasStopped = mm.hasStopped := by
      split at hsent
      · cases hsend : X.SendStop mm.net with
        | none => rw [hsend] at hsent; simp at hsent
        | some t =>
          rw [hsend] at hsent
          simp only [Option.map_some', Option.some.injEq] at hsent
          rw [← hsent]
      · simp only [Option.some.injEq] at hsent
        rw [← hsent]
    split at h
    · simp at h
    · split at h
      · simp at h
      · simp only [Option.some.injEq, Prod.mk.injEq, and_true] at h
        rw [← h]
        exact ⟨hs2, rfl, rfl, rfl⟩

theorem Stop_success (mm mm1 : MainModule L T) (h : Stop E X mm = some (mm1, none)) :
    mm1.hasStopped = true ∧ mm1.modules = (fun _ => none) ∧
    mm1.proto = false ∧ mm1.socket = false := by
  unfold Stop at h
  simp only at h
  split at h
  · simp at h
  · split at h
    · simp at h
    · split at h
      · simp at h
      · split at h
        · simp at h
        · split at h
          · simp at h
          · obtain ⟨h1, h2, h3, h4⟩ := stopRelease_success X _ mm1 h
            rw [stopDelLoop_hasStopped] at h1
            exact ⟨h1, h2, h3, h4⟩

theorem Stop_of_released (mm : MainModule L T) (hp : mm.proto = false)
    (hs : mm.hasStopped = true) :
    Stop E X mm = some (mm, some "VXProto didn't initialized") := by
  have hsame : { mm with hasStopped := true } = mm := by
    cases mm
    simp only at hs
    subst hs
    rfl
  unfold Stop
  simp only
  rw [hsame, if_pos hp]

end stopLemmas

/-! ### The reconnect loop -/

theorem countSleeps_retryEvents (pre : List ConnectReturn) :
    countSleeps (retryEvents pre ++ [Event.connect]) = pre.length := by
  induction pre with
  | nil => rfl
  | cons r pre ih =>
    simp only [countSleeps] at ih
    simp [retryEvents, countSleeps, List.countP_cons, ih]

theorem countConnects_retryEvents (pre : List ConnectReturn) :
    countConnects (retryEvents pre ++ [Event.connect]) = pre.length + 1 := by
  induction pre with
  | nil => rfl
  | cons r pre ih =>
    simp only [countConnects] at ih
    simp [retryEvents, countConnects, List.countP_cons, ih]

theorem sleeps_of_retryEvents (pre : List ConnectReturn) (ns : Nat)
    (h : Event.sleep ns ∈ retryEvents pre) : ns = Second * 5 := by
  induction pre with
  | nil => simp [retryEvents] at h
  | cons r pre ih =>
    simp only [retryEvents, List.mem_cons] at h
    rcases h with h | h | h | h
    · cases h
    · cases h
    · cases h
      rfl
    · exact ih h

theorem reconnectLoop_retries {L T : Type} (pre : List ConnectReturn) (mm : MainModule L T)
    (hproto : mm.proto = true)
    (hpre : ∀ r ∈ pre, r.hasStopped = false ∧ r.protoNil = false) :
    ((reconnectLoop mm pre).2 = false ∧
      (reconnectLoop mm pre).1.trace = mm.trace ++ retryEvents pre ++ [Event.connect]) ∧
    ∀ r rest, r.hasStopped = true →
      (reconnectLoop mm (pre ++ r :: rest)).2 = true ∧
      (reconnectLoop mm (pre ++ r :: rest)).1.trace
        = mm.trace ++ retryEvents pre ++ [Event.connect] := by
  induction pre generalizing mm with
  | nil =>
    refine ⟨?_, ?_⟩
    · simp [reconnectLoop, hproto, retryEvents]
    · intro r rest hr
      simp [reconnectLoop, hproto, hr, retryEvents]
  | cons r0 pre ih =>
    obtain ⟨h0, h1⟩ := hpre r0 (List.mem_cons_self _ _)
    have hrest : ∀ r ∈ pre, r.hasStopped = false ∧ r.protoNil = false :=
      fun r hr => hpre r (List.mem_cons_of_mem _ hr)
    have ih1 := ih
      { mm with hasStopped := r0.hasStopped, proto := !r0.protoNil,
                trace := mm.trace ++ [Event.connect] ++ [Event.warn r0.err]
                  ++ [Event.sleep (Second * 5)] }
      (by simp [h1]) hrest
    refine ⟨?_, ?_⟩
    · simpa [reconnectLoop, hproto, h0, retryEvents] using ih1.1
    · intro r rest hr
      simpa [reconnectLoop, hproto, h0, retryEvents] using ih1.2 r rest hr

/-! ## C1: StartModules and the first error -/

/-- C1, as stated, fails: on an orchestrator with no modules whose loader fails
to start `a` and would start `b`, the batch `[a, b]` returns the error raised for
`a`, but `b` is never attempted: the only loader calls are the add and the start
of `a`, and the registry does not contain `b` afterwards. -/
theorem C1_counterexample :
    (startModulesStep envAB startFailsForA (specOf "a" "a" "1")).2
      = some "failed to start module a" ∧
    (startModulesStep envAB startFailsForA (specOf "b" "b" "1")).2 = none ∧
    (serveStartModules envAB startFailsForA "srv" [0]).2 = some "failed to start module a" ∧
    (serveStartModules envAB startFailsForA "srv" [0]).1.trace
      = [Event.loaderAdd "a" true, Event.loaderStart "a" (some "failed to start module a"),
         Event.sendStatusModules "srv", Event.sendDataTo "srv" [] none] ∧
    ¬ (∀ k, ((serveStartModules envAB startFailsForA "srv" [0]).1.modules k).isSome = true
        ↔ k = "b") := by
  refine ⟨by decide, by decide, by decide, by decide, ?_⟩
  intro h
  have hb := (h "b").2 rfl
  revert hb
  decide

/-- C1, amended: the specs of a StartModules batch are attempted in input order
up to and including the first one whose body fails; the call then ends in the
state that this failed body left (no later spec is attempted: the only events
after it are those of the status send, and registry and loader are those left by
the failed body), and the error returned is that first error, alone or followed
by the error of the status send. -/
theorem C1_startModules_ends_at_first_error {L S T : Type} (E : Externals L S T)
    (mm mm1 mm2 : MainModule L T) (dst : String) (data : List Nat)
    (pre suf : List agent.Module) (m : agent.Module) (e : String)
    (hdec : E.Unmarshal data = .ok (pre ++ m :: suf))
    (hpre : startModulesLoop E mm pre = (mm1, none))
    (hm : startModulesStep E mm1 m = (mm2, some e)) :
    (serveStartModules E mm dst data).1.modules = mm2.modules ∧
    (serveStartModules E mm dst data).1.loader = mm2.loader ∧
    (∃ sends, (serveStartModules E mm dst data).1.trace
        = mm2.trace ++ Event.sendStatusModules dst :: sends ∧
      ∀ ev ∈ sends, ∃ d r, ev = Event.sendDataTo dst d r) ∧
    ((serveStartModules E mm dst data).2 = some e ∨
      ∃ errSend, (serveStartModules E mm dst data).2 = some (e ++ " | " ++ errSend)) := by
  have hloop : startModulesLoop E mm (pre ++ m :: suf) = (mm2, some e) :=
    forEachModule_ok_then_fail (startModulesStep E) mm mm1 mm2 pre suf m e hpre hm
  have hserve : serveStartModules E mm dst data = deferSendStatus E dst (mm2, some e) := by
    unfold serveStartModules
    rw [hdec]
    simp only [hloop]
  rw [hserve, deferSendStatus_fst]
  obtain ⟨h1, h2, sends, h3, _, h5⟩ := sendStatusModules_frame E mm2 dst
  exact ⟨h1, h2, ⟨sends, h3, h5⟩, deferSendStatus_err E dst mm2 e⟩

/-- Witness of C1 amended: the batch `[a, b]` with the start of `a` failing. -/
theorem C1_startModules_ends_at_first_error_witness :
    (serveStartModules envAB startFailsForA "srv" [0]).1.modules
      = (startModulesStep envAB startFailsForA (specOf "a" "a" "1")).1.modules ∧
    (serveStartModules envAB startFailsForA "srv" [0]).1.loader
      = (startModulesStep envAB startFailsForA (specOf "a" "a" "1")).1.loader ∧
    (∃ sends, (serveStartModules envAB startFailsForA "srv" [0]).1.trace
        = (startModulesStep envAB startFailsForA (specOf "a" "a" "1")).1.trace
            ++ Event.sendStatusModules "srv" :: sends ∧
      ∀ ev ∈ sends, ∃ d r, ev = Event.sendDataTo "srv" d r) ∧
    ((serveStartModules envAB startFailsForA "srv" [0]).2 = some "failed to start module a" ∨
      ∃ errSend, (serveStartModules envAB startFailsForA "srv" [0]).2
        = some ("failed to start module a" ++ " | " ++ errSend)) :=
  C1_startModules_ends_at_first_error envAB startFailsForA startFailsForA
    (startModulesStep envAB startFailsForA (specOf "a" "a" "1")).1 "srv" [0]
    [] [specOf "b" "b" "1"] (specOf "a" "a" "1") "failed to start module a"
    rfl rfl (Prod.ext rfl (by decide))

/-! ## C2: a module that is already started cannot be started again -/

/-- C2: let the loader keep its contract (`LoaderKeeps`).  If the body of the
StartModules loop succeeded for spec `m1` (the module was started and
registered), and the steps run since then, in the same batch or in later
commands, contain no stop or update of that name, then the StartModules body
for a further spec `m2` with the same name yields an error and leaves the whole
orchestrator state as it was: no loader call is made (the trace is unchanged, so
in particular no add and no start), and the registry still holds its one entry
for that name, unchanged. -/
theorem C2_started_module_not_started_again {L S T : Type} (E : Externals L S T)
    (hl : LoaderKeeps E) (mm : MainModule L T) (m1 m2 : agent.Module) (steps : List Step)
    (hname : m2.Name = m1.Name)
    (h1 : (startModulesStep E mm m1).2 = none)
    (hns : ∀ s ∈ steps, s.stops m1.Name = false) :
    (∃ e, (startModulesStep E (runSteps E (startModulesStep E mm m1).1 steps) m2).2 = some e) ∧
    (startModulesStep E (runSteps E (startModulesStep E mm m1).1 steps) m2).1
      = runSteps E (startModulesStep E mm m1).1 steps ∧
    ((runSteps E (startModulesStep E mm m1).1 steps).modules m2.Name).isSome = true := by
  obtain ⟨hget, hmod⟩ := startModulesStep_success E hl mm m1 h1
  have hheld := runSteps_keeps_held E hl m1.Name steps hns (startModulesStep E mm m1).1
    ⟨hget, by rw [hmod]; rfl⟩
  rw [← hname] at hheld
  obtain ⟨hsame, herr⟩ :=
    startModulesStep_rejected E (runSteps E (startModulesStep E mm m1).1 steps) m2 hheld.1
  exact ⟨herr, hsame, hheld.2⟩

/-- Witness of C2: `a` is started, then `b` is started and a status is sent, then
a second spec named `a` is rejected. -/
theorem C2_started_module_not_started_again_witness :
    (∃ e, (startModulesStep envAB
        (runSteps envAB
          (startModulesStep envAB (freshMain (emptyLoader [] [] [] [])) (specOf "a" "a" "1")).1
          [Step.start (specOf "b" "b" "1"), Step.sendStatus "srv"])
        (specOf "a" "a" "2")).2 = some e) ∧
    (startModulesStep envAB
        (runSteps envAB
          (startModulesStep envAB (freshMain (emptyLoader [] [] [] [])) (specOf "a" "a" "1")).1
          [Step.start (specOf "b" "b" "1"), Step.sendStatus "srv"])
        (specOf "a" "a" "2")).1
      = runSteps envAB
          (startModulesStep envAB (freshMain (emptyLoader [] [] [] [])) (specOf "a" "a" "1")).1
          [Step.start (specOf "b" "b" "1"), Step.sendStatus "srv"] ∧
    ((runSteps envAB
          (startModulesStep envAB (freshMain (emptyLoader [] [] [] [])) (specOf "a" "a" "1")).1
          [Step.start (specOf "b" "b" "1"), Step.sendStatus "srv"]).modules
        (specOf "a" "a" "2").Name).isSome = true :=
  C2_started_module_not_started_again envAB (tableExternals_keeps _)
    (freshMain (emptyLoader [] [] [] [])) (specOf "a" "a" "1") (specOf "a" "a" "2")
    [Step.start (specOf "b" "b" "1"), Step.sendStatus "srv"] rfl (by decide) (by decide)

/-! ## C3: StopModules and an unknown name -/

/-- C3, as stated, fails when a name of the suffix also occurs in the prefix:
with `x` running and `y` unknown, the batch `[x, y, x]` (prefix `[x]`, bad name
`y`, suffix `[x]`) meets the premises and returns the not-found error, yet the
loader's stop was called for the suffix name `x` and its registry entry is gone. -/
theorem C3_counterexample :
    (envX.Get runningX.loader "x").map (fun inst => inst.status)
      = some agent.ModuleStatus_Status.RUNNING ∧
    (stopModulesLoop envX runningX [specOf "x" "x" "1"]).2 = none ∧
    envX.Get runningX.loader "y" = none ∧
    envX.Get (stopModulesLoop envX runningX [specOf "x" "x" "1"]).1.loader "y" = none ∧
    (serveStopModules envX runningX "srv" [1]).2 = some "module y not found" ∧
    ¬ (∀ s ∈ [specOf "x" "x" "1"],
        Event.loaderStop s.Name none ∉ (serveStopModules envX runningX "srv" [1]).1.trace ∧
        (serveStopModules envX runningX "srv" [1]).1.modules s.Name = runningX.modules s.Name) := by
  refine ⟨by decide, by decide, by decide, by decide, by decide, ?_⟩
  intro h
  have hx := (h (specOf "x" "x" "1") (List.mem_singleton.mpr rfl)).1
  revert hx
  decide

/-- C3, amended: for a StopModules batch `pre ++ [bad] ++ suf` in which the loop
succeeds on every spec of `pre` and the loader does not know `bad` when its turn
comes, the call returns the not-found error for `bad` (alone or followed by the
error of the status send); the loader calls and registry writes of the call are
exactly a successful stop, a successful delete and a registry removal for each
name of `pre`, in order, so that nothing is called on behalf of `suf`; the loader
is left as the loop on `pre` left it; and the registry loses exactly the names
of `pre`: every other name, in particular every name of `suf` that is not also
in `pre`, keeps its entry. -/
theorem C3_stopModules_aborts_at_unknown_name {L S T : Type} (E : Externals L S T)
    (mm mm1 : MainModule L T) (dst : String) (data : List Nat)
    (pre suf : List agent.Module) (bad : agent.Module)
    (hdec : E.Unmarshal data = .ok (pre ++ bad :: suf))
    (hpre : stopModulesLoop E mm pre = (mm1, none))
    (hbad : (E.Get mm1.loader bad.Name).isNone = true) :
    ((serveStopModules E mm dst data).2 = some ("module " ++ bad.Name ++ " not found") ∨
      ∃ errSend, (serveStopModules E mm dst data).2
        = some ("module " ++ bad.Name ++ " not found" ++ " | " ++ errSend)) ∧
    (∃ sends, (serveStopModules E mm dst data).1.trace
        = mm.trace ++ stopEvents pre ++ Event.sendStatusModules dst :: sends ∧
      ∀ ev ∈ sends, ∃ d r, ev = Event.sendDataTo dst d r) ∧
    (serveStopModules E mm dst data).1.loader = mm1.loader ∧
    (∀ k, (serveStopModules E mm dst data).1.modules k
        = if k ∈ pre.map (fun p => p.Name) then none else mm.modules k) := by
  have hloop : stopModulesLoop E mm (pre ++ bad :: suf)
      = (mm1, some ("module " ++ bad.Name ++ " not found")) :=
    forEachModule_ok_then_fail (stopModulesStep E) mm mm1 mm1 pre suf bad _ hpre
      (stopModulesStep_not_found E mm1 bad hbad)
  have hserve : serveStopModules E mm dst data
      = deferSendStatus E dst (mm1, some ("module " ++ bad.Name ++ " not found")) := by
    unfold serveStopModules
    rw [hdec]
    simp only [hloop]
  obtain ⟨ht, hm⟩ := stopModulesLoop_success E pre mm mm1 hpre
  obtain ⟨h1, h2, sends, h3, _, h5⟩ := sendStatusModules_frame E mm1 dst
  rw [hserve, deferSendStatus_fst]
  refine ⟨deferSendStatus_err E dst mm1 _, ⟨sends, ?_, h5⟩, h2, ?_⟩
  · rw [h3, ht]
  · intro k
    rw [h1]
    exact hm k

/-- Witness of C3 amended: with `x` running and `y`, `z` unknown, the batch
`[x, y, z]`. -/
theorem C3_stopModules_aborts_at_unknown_name_witness :
    ((serveStopModules envX runningX "srv" [2]).2
        = some ("module " ++ (specOf "y" "y" "1").Name ++ " not found") ∨
      ∃ errSend, (serveStopModules envX runningX "srv" [2]).2
        = some ("module " ++ (specOf "y" "y" "1").Name ++ " not found" ++ " | " ++ errSend)) ∧
    (∃ sends, (serveStopModules envX runningX "srv" [2]).1.trace
        = runningX.trace ++ stopEvents [specOf "x" "x" "1"]
            ++ Event.sendStatusModules "srv" :: sends ∧
      ∀ ev ∈ sends, ∃ d r, ev = Event.sendDataTo "srv" d r) ∧
    (serveStopModules envX runningX "srv" [2]).1.loader
      = (stopModulesLoop envX runningX [specOf "x" "x" "1"]).1.loader ∧
    (∀ k, (serveStopModules envX runningX "srv" [2]).1.modules k
        = if k ∈ [specOf "x" "x" "1"].map (fun p => p.Name) then none
          else runningX.modules k) :=
  C3_stopModules_aborts_at_unknown_name envX runningX
    (stopModulesLoop envX runningX [specOf "x" "x" "1"]).1 "srv" [2]
    [specOf "x" "x" "1"] [specOf "z" "z" "1"] (specOf "y" "y" "1")
    rfl (Prod.ext rfl (by decide)) (by decide)

/-! ## C4: one status response per command, after the batch -/

/-- C4: every StartModules, StopModules, UpdateModules or UpdateConfigModules
command, whatever its payload and its outcome (also when the payload does not
decode), appends to the trace some changes of the loader and of the registry,
then exactly one `sendStatusModules` to the source of the command, then at most
one `SendDataTo` to that same address and nothing else: one status response is
attempted, and it comes after every loader and registry change of the batch. -/
theorem C4_one_status_response_after_batch {L S T : Type} (E : Externals L S T)
    (mm : MainModule L T) (c : Command) :
    ∃ changes sends, (serveCommand E mm c).1.trace
        = mm.trace ++ changes ++ Event.sendStatusModules c.src :: sends ∧
      (∀ e ∈ changes, Event.isChange e = true) ∧ sends.length ≤ 1 ∧
      ∀ e ∈ sends, ∃ d r, e = Event.sendDataTo c.src d r := by
  cases c with
  | StartModules src payload =>
    apply deferSendStatus_trace
    split
    · exact ⟨[], by simp, by simp⟩
    · exact forEachModule_changes _ (startModulesStep_changes E) mm _
  | StopModules src payload =>
    apply deferSendStatus_trace
    split
    · exact ⟨[], by simp, by simp⟩
    · exact forEachModule_changes _ (stopModulesStep_changes E) mm _
  | UpdateModules src payload =>
    apply deferSendStatus_trace
    split
    · exact ⟨[], by simp, by simp⟩
    · exact forEachModule_changes _ (updateModulesStep_changes E) mm _
  | UpdateConfigModules src payload =>
    apply deferSendStatus_trace
    split
    · exact ⟨[], by simp, by simp⟩
    · exact forEachModule_changes _ (updateConfigModulesStep_changes E) mm _

/-! ## C5: UpdateConfigModules and the registered config -/

/-- C5, as stated, fails: with `x` running and registered at version 1,
UpdateConfigModules with a spec for `x` at version 2 succeeds and leaves the
registered config with the version and the last-update stamp of the incoming
spec, not with those it had before the call. -/
theorem C5_counterexample :
    (envX.Get runningX.loader "x").isSome = true ∧
    (runningX.modules "x").map (fun mc => (mc.Version, mc.LastUpdate)) = some ("1", "") ∧
    (serveUpdateConfigModules envX runningX "srv" [3]).2 = none ∧
    ((serveUpdateConfigModules envX runningX "srv" [3]).1.modules "x").map
        (fun mc => (mc.Version, mc.LastUpdate)) = some ("2", "2020-02-02") ∧
    ¬ (((serveUpdateConfigModules envX runningX "srv" [3]).1.modules "x").map
          (fun mc => mc.Version)
        = (runningX.modules "x").map (fun mc => mc.Version)) := by
  refine ⟨by decide, by decide, by decide, by decide, by decide⟩

/-- C5, amended: for an UpdateConfigModules spec `m` naming a module that the
loader holds and the registry has an entry `romc` for, the body succeeds and the
registry entry of that name is replaced by the config built from the incoming
spec: its seven config-item fields are those of the spec, and so are its name,
agent ID, OS map, version, events and last-update stamp; the entries of all
other names are unchanged.  The field-by-field overwrite of lines 326 to 333
keeps the other fields of `romc`, but it is made on the object that line 336
then drops from the registry. -/
theorem C5_updateConfig_replaces_registered_config {L S T : Type} (E : Externals L S T)
    (mm : MainModule L T) (m : agent.Module) (romc : loader.ModuleConfig)
    (hrun : (E.Get mm.loader m.Name).isSome = true)
    (hreg : mm.modules m.Name = some romc) :
    (updateConfigModulesStep E mm m).2 = none ∧
    (∃ mc, (updateConfigModulesStep E mm m).1.modules m.Name = some mc ∧
      mc.IConfigItem.ConfigSchema = m.ConfigItem.ConfigSchema ∧
      mc.IConfigItem.DefaultConfig = m.ConfigItem.DefaultConfig ∧
      mc.IConfigItem.CurrentConfig = m.ConfigItem.CurrentConfig ∧
      mc.IConfigItem.EventDataSchema = m.ConfigItem.EventDataSchema ∧
      mc.IConfigItem.EventConfigSchema = m.ConfigItem.EventConfigSchema ∧
      mc.IConfigItem.DefaultEventConfig = m.ConfigItem.DefaultEventConfig ∧
      mc.IConfigItem.CurrentEventConfig = m.ConfigItem.CurrentEventConfig ∧
      mc.Name = m.Config.Name ∧
      mc.AgentID = m.Config.AgentId ∧
      mc.OS = (getModuleConfig m).OS ∧
      mc.Version = m.Config.Version ∧
      mc.Events = m.Config.Events ∧
      mc.LastUpdate = m.Config.LastUpdate) ∧
    (∀ k, k ≠ m.Name → (updateConfigModulesStep E mm m).1.modules k = mm.modules k) ∧
    (mergeConfigItem mm m.Name (getModuleConfig m)).modules m.Name
      = some { romc with IConfigItem := (getModuleConfig m).IConfigItem } := by
  have hnone : ¬ (E.Get mm.loader m.Name).isNone = true := by
    cases hg : E.Get mm.loader m.Name with
    | none => rw [hg] at hrun; simp at hrun
    | some ms => simp
  unfold updateConfigModulesStep
  simp only
  rw [if_neg hnone]
  refine ⟨rfl, ⟨getModuleConfig m, ?_, rfl, rfl, rfl, rfl, rfl, rfl, rfl, rfl, rfl, rfl, rfl, rfl,
    rfl⟩, ?_, ?_⟩
  · simp [controlMsg, modulesSet]
  · intro k hk
    simp only [controlMsg, modulesSet, mergeConfigItem, hreg]
    rw [Function.update_noteq hk, Function.update_noteq hk]
  · simp [mergeConfigItem, hreg, overwriteConfigItem, getModuleConfig]

/-- Witness of C5 amended: `x` running at version 1 and the spec `specXv2`. -/
theorem C5_updateConfig_replaces_registered_config_witness :
    (updateConfigModulesStep envX runningX specXv2).2 = none ∧
    (∃ mc, (updateConfigModulesStep envX runningX specXv2).1.modules specXv2.Name = some mc ∧
      mc.IConfigItem.ConfigSchema = specXv2.ConfigItem.ConfigSchema ∧
      mc.IConfigItem.DefaultConfig = specXv2.ConfigItem.DefaultConfig ∧
      mc.IConfigItem.CurrentConfig = specXv2.ConfigItem.CurrentConfig ∧
      mc.IConfigItem.EventDataSchema = specXv2.ConfigItem.EventDataSchema ∧
      mc.IConfigItem.EventConfigSchema = specXv2.ConfigItem.EventConfigSchema ∧
      mc.IConfigItem.DefaultEventConfig = specXv2.ConfigItem.DefaultEventConfig ∧
      mc.IConfigItem.CurrentEventConfig = specXv2.ConfigItem.CurrentEventConfig ∧
      mc.Name = specXv2.Config.Name ∧
      mc.AgentID = specXv2.Config.AgentId ∧
      mc.OS = (getModuleConfig specXv2).OS ∧
      mc.Version = specXv2.Config.Version ∧
      mc.Events = specXv2.Config.Events ∧
      mc.LastUpdate = specXv2.Config.LastUpdate) ∧
    (∀ k, k ≠ specXv2.Name →
      (updateConfigModulesStep envX runningX specXv2).1.modules k = runningX.modules k) ∧
    (mergeConfigItem runningX specXv2.Name (getModuleConfig specXv2)).modules specXv2.Name
      = some { getModuleConfig (specOf "x" "x" "1") with
               IConfigItem := (getModuleConfig specXv2).IConfigItem } :=
  C5_updateConfig_replaces_registered_config envX runningX specXv2
    (getModuleConfig (specOf "x" "x" "1")) (by decide) (by decide)

/-! ## C6: the status list is a join of the loader's list with the registry -/

/-- C6, as stated, fails: after StartModules of a spec whose module name is `a`
and whose config name is `b`, the one ID that the loader lists is `a`, the loader
has an instance and the registry an entry for it, and the status list has one
entry, named `b`: a name that is an ID of neither table. -/
theorem C6_counterexample :
    envMis.List runningMis.loader = ["a"] ∧
    inBoth envMis runningMis "a" = true ∧
    envMis.Get runningMis.loader "b" = none ∧
    runningMis.modules "b" = none ∧
    (getStatusModules envMis runningMis).map (fun st => st.Name) = ["b"] ∧
    ¬ ((getStatusModules envMis runningMis).map (fun st => st.Name)
        = (envMis.List runningMis.loader).filter (inBoth envMis runningMis)) := by
  refine ⟨by decide, by decide, by decide, by decide, by decide, by decide⟩

/-- C6, amended: the status list has one entry for each ID of `loader.List()`, in
that order, for which the loader has an instance and the registry has an entry,
and none for any other ID; the name of an entry is the `Name` field of the
registered config of its ID, so the names of the list are exactly those IDs
whenever every registered config is named like its registry key.  The function
returns the list alone: it has no error result and it writes neither to the
registry nor to the loader. -/
theorem C6_status_list_is_join {L S T : Type} (E : Externals L S T) (mm : MainModule L T) :
    getStatusModules E mm = (E.List mm.loader).filterMap (joinStatus E mm) ∧
    (getStatusModules E mm).map (fun st => st.Name)
      = ((E.List mm.loader).filter (inBoth E mm)).filterMap
          (fun id => (mm.modules id).map (fun mc => mc.Name)) ∧
    ((∀ id mc, mm.modules id = some mc → mc.Name = id) →
      (getStatusModules E mm).map (fun st => st.Name)
        = (E.List mm.loader).filter (inBoth E mm)) := by
  have h1 : getStatusModules E mm = (E.List mm.loader).filterMap (joinStatus E mm) := by
    unfold getStatusModules
    rw [getStatusModulesLoop_eq]
    rfl
  refine ⟨h1, ?_, ?_⟩
  · rw [h1]
    exact joinStatus_names E mm _
  · intro hnames
    rw [h1, joinStatus_names, registered_names E mm hnames]

/-- Witness of C6 amended: with `x` running and registered under its own name,
the names of the status list are the IDs in both tables. -/
theorem C6_status_list_is_join_witness :
    (getStatusModules envX runningX).map (fun st => st.Name)
      = (envX.List runningX.loader).filter (inBoth envX runningX) :=
  (C6_status_list_is_join envX runningX).2.2 (by
    intro id mc h
    have hreg : runningX.modules
        = Function.update (fun _ => none) "x" (some (getModuleConfig (specOf "x" "x" "1"))) :=
      rfl
    rw [hreg] at h
    by_cases hx : id = "x"
    · subst hx
      rw [Function.update_same] at h
      rw [← Option.some.inj h]
      rfl
    · rw [Function.update_noteq hx] at h
      exact absurd h (by simp))

/-! ## C7: how names enter and leave the registry -/

/-- C7, as stated, fails: from an orchestrator with no modules whose loader fails
to start `a`, StartModules `[a]` leaves `a` added to the loader and absent from
the registry, and UpdateConfigModules `[a]` then makes `a` present in the
registry, although the loader's start never succeeded for `a`. -/
theorem C7_counterexample :
    startFailsForA.modules "a" = none ∧
    (runCommands envA startFailsForA [Command.StartModules "srv" [0]]).modules "a" = none ∧
    ((runCommands envA startFailsForA
        [Command.StartModules "srv" [0], Command.UpdateConfigModules "srv" [0]]).modules
      "a").isSome = true ∧
    (runCommands envA startFailsForA
        [Command.StartModules "srv" [0], Command.UpdateConfigModules "srv" [0]]).trace
      = [Event.loaderAdd "a" true, Event.loaderStart "a" (some "failed to start module a"),
         Event.sendStatusModules "srv", Event.sendDataTo "srv" [] none,
         Event.modulesSet "a", Event.controlMsg "a" "update_config" "",
         Event.sendStatusModules "srv", Event.sendDataTo "srv" [1] none] ∧
    ¬ StartedThenSet "a" (runCommands envA startFailsForA
        [Command.StartModules "srv" [0], Command.UpdateConfigModules "srv" [0]]).trace := by
  refine ⟨by decide, by decide, by decide, by decide, ?_⟩
  intro h
  have hmem : Event.loaderStart "a" none ∈ (runCommands envA startFailsForA
      [Command.StartModules "srv" [0], Command.UpdateConfigModules "srv" [0]]).trace :=
    List.IsInfix.subset h (by simp)
  revert hmem
  decide

/-- C7, amended: in every state reached by a sequence of commands (from the
empty orchestrator or from any other state), a further command only appends
events `evs` to the trace, and for every name `n`: if `n` was absent from the
registry before the command and is present after it, then either `evs` contains,
in a row, a successful loader add of `n`, a successful loader start of `n` and
the registry write of `n` (a start sequence of StartModules or UpdateModules
whose last step is the registration), or the command is UpdateConfigModules and
`evs` contains the registry write of `n` followed by the `update_config` signal
to the instance the loader holds for `n`; and if `n` was present before and is
absent after, then `evs` contains, in a row, a successful loader stop of `n`, a
successful loader delete of `n` and the removal of the registry entry. -/
theorem C7_registry_lifecycle {L S T : Type} (E : Externals L S T) (mm0 : MainModule L T)
    (cmds : List Command) (c : Command) :
    ∃ evs, (serveCommand E (runCommands E mm0 cmds) c).1.trace
        = (runCommands E mm0 cmds).trace ++ evs ∧
      ∀ n, ((runCommands E mm0 cmds).modules n = none →
            ((serveCommand E (runCommands E mm0 cmds) c).1.modules n).isSome = true →
            StartedThenSet n evs ∨
              ((∃ src payload, c = Command.UpdateConfigModules src payload) ∧
                ConfigUpdated n evs)) ∧
        (((runCommands E mm0 cmds).modules n).isSome = true →
            (serveCommand E (runCommands E mm0 cmds) c).1.modules n = none →
            StoppedThenDeleted n evs) :=
  serveCommand_transitions E (runCommands E mm0 cmds) c

/-- Witness of C7 amended: on the empty orchestrator with a loader that starts
every module, StartModules `[a]` makes `a` present, and the events of the command
contain the successful add, the successful start and the registration of `a`. -/
theorem C7_registry_lifecycle_witness :
    ∃ evs, (serveCommand envA (runCommands envA (freshMain (emptyLoader [] [] [] [])) [])
          (Command.StartModules "srv" [0])).1.trace
        = (runCommands envA (freshMain (emptyLoader [] [] [] [])) []).trace ++ evs ∧
      StartedThenSet "a" evs := by
  obtain ⟨evs, ht, h⟩ := C7_registry_lifecycle envA (freshMain (emptyLoader [] [] [] [])) []
    (Command.StartModules "srv" [0])
  refine ⟨evs, ht, ?_⟩
  rcases (h "a").1 (by decide) (by decide) with hs | ⟨⟨src, payload, hc⟩, _⟩
  · exact hs
  · cases hc

/-! ## C8: the loader calls of UpdateModules -/

/-- C8, as stated, fails.  With `x` running over a loader that refuses to stop
it, UpdateModules of `x` calls the loader's stop once and nothing else: no start
is issued and the old instance, built from version 1, is kept.  With `x` running
over a loader that refuses to delete it, UpdateModules of `x` stops `x` and then
ends without a start being issued. -/
theorem C8_counterexample :
    (envX.Get runningXStopFails.loader "x").isSome = true ∧
    (serveUpdateModules envX runningXStopFails "srv" [3]).1.trace
      = runningXStopFails.trace ++
        [Event.loaderStop "x" (some "failed to stop module x"),
         Event.sendStatusModules "srv", Event.sendDataTo "srv" [1] none] ∧
    (envX.Get (serveUpdateModules envX runningXStopFails "srv" [3]).1.loader "x").map
        (fun inst => inst.config.Version) = some "1" ∧
    (envX.Get runningXDelFails.loader "x").isSome = true ∧
    (serveUpdateModules envX runningXDelFails "srv" [3]).1.trace
      = runningXDelFails.trace ++
        [Event.loaderStop "x" none, Event.loaderDel "x" false,
         Event.sendStatusModules "srv", Event.sendDataTo "srv" [1] none] ∧
    (envX.Get (serveUpdateModules envX runningXDelFails "srv" [3]).1.loader "x").map
        (fun inst => inst.status) = some agent.ModuleStatus_Status.STOPPED := by
  refine ⟨by decide, by decide, by decide, by decide, by decide, by decide⟩

/-- C8, amended: for an UpdateModules spec whose name is a module that the loader
holds, the calls made to the loader are a beginning of the sequence stop,
delete, add, start, each for that name and each made once, cut after the first
call that fails (or after the delete when the new state cannot be built): the
stop is always called; a start is issued, after a successful delete and a
successful add of the new state, exactly when stop, delete, state construction
and add all succeeded; and the registry entry is written only after a successful
start.  The error returned is that of the step that failed. -/
theorem C8_updateModules_loader_calls {L S T : Type} (E : Externals L S T)
    (mm : MainModule L T) (m : agent.Module)
    (hheld : (E.Get mm.loader m.Name).isSome = true) :
    ∃ evs, (updateModulesStep E mm m).1.trace = mm.trace ++ evs ∧
      ((∃ e, evs = [Event.loaderStop m.Name (some e)] ∧
          (updateModulesStep E mm m).2 = some e) ∨
       (evs = [Event.loaderStop m.Name none, Event.loaderDel m.Name false] ∧
          (updateModulesStep E mm m).2
            = some ("failed delete module " ++ m.Name ++ " from loader")) ∨
       (∃ e, evs = [Event.loaderStop m.Name none, Event.loaderDel m.Name true] ∧
          E.NewState (getModuleConfig m) (getModuleItem m) = .error e ∧
          (updateModulesStep E mm m).2 = some e) ∨
       (evs = [Event.loaderStop m.Name none, Event.loaderDel m.Name true,
            Event.loaderAdd m.Name false] ∧
          (updateModulesStep E mm m).2
            = some ("failed add module " ++ m.Name ++ " to loader")) ∨
       (∃ e, evs = [Event.loaderStop m.Name none, Event.loaderDel m.Name true,
            Event.loaderAdd m.Name true, Event.loaderStart m.Name (some e)] ∧
          (updateModulesStep E mm m).2 = some e) ∨
       (evs = [Event.loaderStop m.Name none, Event.loaderDel m.Name true,
            Event.loaderAdd m.Name true, Event.loaderStart m.Name none,
            Event.modulesSet m.Name] ∧
          (updateModulesStep E mm m).2 = none)) := by
  have hnone : ¬ (E.Get mm.loader m.Name).isNone = true := by
    cases hg : E.Get mm.loader m.Name with
    | none => rw [hg] at hheld; simp at hheld
    | some ms => simp
  unfold updateModulesStep
  simp only
  rw [if_neg hnone]
  cases hstop : (E.Stop mm.loader m.Name).1 with
  | some e =>
    refine ⟨_, ?_, Or.inl ⟨e, rfl, ?_⟩⟩
    · simp [loaderStop, hstop]
    · simp [loaderStop, hstop]
  | none =>
    cases hdel : (E.Del (E.Stop mm.loader m.Name).2 m.Name).1 with
    | false =>
      refine ⟨_, ?_, Or.inr (Or.inl ⟨rfl, ?_⟩)⟩
      · simp [loaderStop, loaderDel, hstop, hdel]
      · simp [loaderStop, loaderDel, hstop, hdel]
    | true =>
      cases hnew : E.NewState (getModuleConfig m) (getModuleItem m) with
      | error e =>
        refine ⟨_, ?_, Or.inr (Or.inr (Or.inl ⟨e, rfl, rfl, ?_⟩))⟩
        · simp [loaderStop, loaderDel, hstop, hdel]
        · simp [loaderStop, loaderDel, hstop, hdel]
      | ok s =>
        cases hadd : (E.Add (E.Del (E.Stop mm.loader m.Name).2 m.Name).2 m.Name s).1 with
        | false =>
          refine ⟨_, ?_, Or.inr (Or.inr (Or.inr (Or.inl ⟨rfl, ?_⟩)))⟩
          · simp [loaderStop, loaderDel, loaderAdd, hstop, hdel, hadd]
          · simp [loaderStop, loaderDel, loaderAdd, hstop, hdel, hadd]
        | true =>
          cases hst : (E.Start
              (E.Add (E.Del (E.Stop mm.loader m.Name).2 m.Name).2 m.Name s).2 m.Name).1 with
          | some e =>
            refine ⟨_, ?_, Or.inr (Or.inr (Or.inr (Or.inr (Or.inl ⟨e, rfl, ?_⟩))))⟩
            · simp [loaderStop, loaderDel, loaderAdd, loaderStart, hstop, hdel, hadd, hst]
            · simp [loaderStop, loaderDel, loaderAdd, loaderStart, hstop, hdel, hadd, hst]
          | none =>
            refine ⟨_, ?_, Or.inr (Or.inr (Or.inr (Or.inr (Or.inr ⟨rfl, ?_⟩))))⟩
            · simp [loaderStop, loaderDel, loaderAdd, loaderStart, modulesSet, hstop, hdel,
                hadd, hst]
            · simp [loaderStop, loaderDel, loaderAdd, loaderStart, hstop, hdel, hadd, hst]

/-- Witness of C8 amended: `x` running over a loader without failures, updated
to `specXv2`. -/
theorem C8_updateModules_loader_calls_witness :
    (envX.Get runningX.loader specXv2.Name).isSome = true ∧
    ∃ evs, (updateModulesStep envX runningX specXv2).1.trace = runningX.trace ++ evs ∧
      ((∃ e, evs = [Event.loaderStop specXv2.Name (some e)] ∧
          (updateModulesStep envX runningX specXv2).2 = some e) ∨
       (evs = [Event.loaderStop specXv2.Name none, Event.loaderDel specXv2.Name false] ∧
          (updateModulesStep envX runningX specXv2).2
            = some ("failed delete module " ++ specXv2.Name ++ " from loader")) ∨
       (∃ e, evs = [Event.loaderStop specXv2.Name none, Event.loaderDel specXv2.Name true] ∧
          envX.NewState (getModuleConfig specXv2) (getModuleItem specXv2) = .error e ∧
          (updateModulesStep envX runningX specXv2).2 = some e) ∨
       (evs = [Event.loaderStop specXv2.Name none, Event.loaderDel specXv2.Name true,
            Event.loaderAdd specXv2.Name false] ∧
          (updateModulesStep envX runningX specXv2).2
            = some ("failed add module " ++ specXv2.Name ++ " to loader")) ∨
       (∃ e, evs = [Event.loaderStop specXv2.Name none, Event.loaderDel specXv2.Name true,
            Event.loaderAdd specXv2.Name true, Event.loaderStart specXv2.Name (some e)] ∧
          (updateModulesStep envX runningX specXv2).2 = some e) ∨
       (evs = [Event.loaderStop specXv2.Name none, Event.loaderDel specXv2.Name true,
            Event.loaderAdd specXv2.Name true, Event.loaderStart specXv2.Name none,
            Event.modulesSet specXv2.Name] ∧
          (updateModulesStep envX runningX specXv2).2 = none)) :=
  ⟨by decide, C8_updateModules_loader_calls envX runningX specXv2 (by decide)⟩

/-! ## C9: UpdateModules against stop-then-start -/

/-- C9 at the failing input: `x` is running and registered at version 1, and the
loader fails to start `x` at version 2.  UpdateModules with the spec of version
2 stops and deletes the old instance, adds the new one and fails to start it.
The loader ends in the same state as after the stop step followed by the start
step, and the same error is returned, but the registry differs: after
stop-then-start the entry of `x` is gone, after UpdateModules the entry built
from version 1 is still there, and the status list joins it with the new
instance. -/
theorem C9_failed_restart_keeps_old_entry :
    runningXv2Broken.modules "x" = some (getModuleConfig (specOf "x" "x" "1")) ∧
    (serveUpdateModules envX runningXv2Broken "srv" [3]).2 = some "failed to start module x" ∧
    (serveUpdateModules envX runningXv2Broken "srv" [3]).1.trace
      = runningXv2Broken.trace ++
        [Event.loaderStop "x" none, Event.loaderDel "x" true, Event.loaderAdd "x" true,
         Event.loaderStart "x" (some "failed to start module x"),
         Event.sendStatusModules "srv", Event.sendDataTo "srv" [1] none] ∧
    (stopThenStartStep envX runningXv2Broken specXv2).2 = some "failed to start module x" ∧
    (serveUpdateModules envX runningXv2Broken "srv" [3]).1.loader
      = (stopThenStartStep envX runningXv2Broken specXv2).1.loader ∧
    (stopThenStartStep envX runningXv2Broken specXv2).1.modules "x" = none ∧
    (serveUpdateModules envX runningXv2Broken "srv" [3]).1.modules "x"
      = some (getModuleConfig (specOf "x" "x" "1")) ∧
    (envX.Get (serveUpdateModules envX runningXv2Broken "srv" [3]).1.loader "x").map
        (fun inst => inst.config.Version) = some "2" ∧
    (getStatusModules envX (serveUpdateModules envX runningXv2Broken "srv" [3]).1).map
        (fun st => (st.Name, st.Config.Version)) = [("x", "1")] := by
  refine ⟨by decide, by decide, by decide, by decide, by decide, by decide, by decide,
    by decide, by decide⟩

/-! ## C10: the reconnect loop of Start -/

/-- C10: let the loop start with `mm.proto` set, and let `pre` be `N` Connect
calls in a row (`N` is `pre.length`) that returned with the stop flag unset, as
`N` failed calls do.
While the next Connect call holds (the call that succeeds: it blocks for as long
as the connection lasts), the loop is inside that call and exactly `N` backoff
waits have occurred, each of five seconds, one after each of the `N` returned
calls, with `N + 1` Connect calls in all.  And whenever a Connect call returns
with the stop flag set, the loop exits at once, whatever would follow: no event
is added after that Connect, so there is no further wait and no further Connect
call. -/
theorem C10_reconnect_loop_waits {L T : Type} (mm : MainModule L T)
    (pre : List ConnectReturn)
    (hproto : mm.proto = true)
    (hpre : ∀ r ∈ pre, r.hasStopped = false ∧ r.protoNil = false) :
    ((reconnectLoop mm pre).2 = false ∧
      (reconnectLoop mm pre).1.trace = mm.trace ++ retryEvents pre ++ [Event.connect]) ∧
    (∀ r rest, r.hasStopped = true →
      (reconnectLoop mm (pre ++ r :: rest)).2 = true ∧
      (reconnectLoop mm (pre ++ r :: rest)).1.trace
        = mm.trace ++ retryEvents pre ++ [Event.connect]) ∧
    countSleeps (retryEvents pre ++ [Event.connect]) = pre.length ∧
    countConnects (retryEvents pre ++ [Event.connect]) = pre.length + 1 ∧
    (∀ ns, Event.sleep ns ∈ retryEvents pre → ns = 5 * 1000000000) := by
  obtain ⟨h1, h2⟩ := reconnectLoop_retries pre mm hproto hpre
  refine ⟨h1, h2, countSleeps_retryEvents pre, countConnects_retryEvents pre, ?_⟩
  intro ns hns
  rw [sleeps_of_retryEvents pre ns hns]
  rfl

/-- Witness of C10: two failed Connect calls with the stop flag unset. -/
theorem C10_reconnect_loop_waits_witness :
    ((reconnectLoop (freshMain (emptyLoader [] [] [] [])) [connectFails, connectFails]).2 = false ∧
      (reconnectLoop (freshMain (emptyLoader [] [] [] [])) [connectFails, connectFails]).1.trace
        = (freshMain (emptyLoader [] [] [] [])).trace
            ++ retryEvents [connectFails, connectFails] ++ [Event.connect]) ∧
    (∀ r rest, r.hasStopped = true →
      (reconnectLoop (freshMain (emptyLoader [] [] [] []))
          ([connectFails, connectFails] ++ r :: rest)).2 = true ∧
      (reconnectLoop (freshMain (emptyLoader [] [] [] []))
          ([connectFails, connectFails] ++ r :: rest)).1.trace
        = (freshMain (emptyLoader [] [] [] [])).trace
            ++ retryEvents [connectFails, connectFails] ++ [Event.connect]) ∧
    countSleeps (retryEvents [connectFails, connectFails] ++ [Event.connect])
      = [connectFails, connectFails].length ∧
    countConnects (retryEvents [connectFails, connectFails] ++ [Event.connect])
      = [connectFails, connectFails].length + 1 ∧
    (∀ ns, Event.sleep ns ∈ retryEvents [connectFails, connectFails] → ns = 5 * 1000000000) :=
  C10_reconnect_loop_waits (freshMain (emptyLoader [] [] [] [])) [connectFails, connectFails]
    rfl (by decide)

/-! ## C11: UpdateConfigModules only signals the instances -/

/-- C11: for every UpdateConfigModules call, the events of the call contain no
call of the loader's add, delete, start or stop.  When the loader keeps its
contract about control signals (`ControlKeeps`), the control signals among the
events are exactly, in input order, one `update_config` signal per spec
processed (the specs of the decoded batch up to the first name the loader does
not know), each sent to the instance of the name of its spec and carrying the
current config of its spec; and the loader lists the same module IDs and
reports the same status for every ID after the call as before it. -/
theorem C11_updateConfig_only_signals {L S T : Type} (E : Externals L S T)
    (mm : MainModule L T) (dst : String) (data : List Nat) :
    ∃ evs, (serveUpdateConfigModules E mm dst data).1.trace = mm.trace ++ evs ∧
      (∀ e ∈ evs, Event.isLoaderCall e = false) ∧
      (ControlKeeps E →
        evs.filter Event.isControl
          = ((decodedBatch E data).takeWhile
              (fun m => (E.Get mm.loader m.Name).isSome)).map configSignal ∧
        E.List (serveUpdateConfigModules E mm dst data).1.loader = E.List mm.loader ∧
        ∀ k, (E.Get (serveUpdateConfigModules E mm dst data).1.loader k).map E.GetStatus
          = (E.Get mm.loader k).map E.GetStatus) := by
  have hbody : ∃ evs,
      (match E.Unmarshal data with
        | .error e => (mm, some ("error unmarshal of modules information: " ++ e))
        | .ok moduleList => updateConfigModulesLoop E mm moduleList).1.trace = mm.trace ++ evs ∧
      (∀ e ∈ evs, Event.isLoaderCall e = false) ∧
      (ControlKeeps E →
        evs.filter Event.isControl
          = ((decodedBatch E data).takeWhile
              (fun m => (E.Get mm.loader m.Name).isSome)).map configSignal ∧
        E.List (match E.Unmarshal data with
          | .error e => (mm, some ("error unmarshal of modules information: " ++ e))
          | .ok moduleList => updateConfigModulesLoop E mm moduleList).1.loader
            = E.List mm.loader ∧
        ∀ k, (E.Get (match E.Unmarshal data with
          | .error e => (mm, some ("error unmarshal of modules information: " ++ e))
          | .ok moduleList =>
            updateConfigModulesLoop E mm moduleList).1.loader k).map E.GetStatus
            = (E.Get mm.loader k).map E.GetStatus) := by
    unfold decodedBatch
    cases hdec : E.Unmarshal data with
    | error e => exact ⟨[], by simp, by simp, fun _ => ⟨by simp, rfl, fun _ => rfl⟩⟩
    | ok l => exact updateConfigModulesLoop_signals E l mm
  obtain ⟨evs, ht, hc, hrest⟩ := hbody
  obtain ⟨_, hsl, sends, hst2, _, hsends⟩ := sendStatusModules_frame E
    (match E.Unmarshal data with
      | .error e => (mm, some ("error unmarshal of modules information: " ++ e))
      | .ok moduleList => updateConfigModulesLoop E mm moduleList).1 dst
  unfold serveUpdateConfigModules
  rw [deferSendStatus_fst]
  refine ⟨evs ++ Event.sendStatusModules dst :: sends, ?_, ?_, fun hk => ?_⟩
  · rw [hst2, ht, List.append_assoc]
  · intro e he
    rcases List.mem_append.mp he with h | h
    · exact hc e h
    · rcases List.mem_cons.mp h with h | h
      · rw [h]
        rfl
      · obtain ⟨d, r, hd⟩ := hsends e h
        rw [hd]
        rfl
  · obtain ⟨hs, hl, hst⟩ := hrest hk
    refine ⟨?_, ?_, ?_⟩
    · rw [List.filter_append, hs]
      have hnone : (Event.sendStatusModules dst :: sends).filter Event.isControl = [] := by
        rw [List.filter_eq_nil_iff]
        intro e he
        rcases List.mem_cons.mp he with h | h
        · rw [h]
          simp [Event.isControl]
        · obtain ⟨d, r, hd⟩ := hsends e h
          rw [hd]
          simp [Event.isControl]
      rw [hnone, List.append_nil]
    · rw [hsl]
      exact hl
    · intro k
      rw [hsl]
      exact hst k

/-- Witness of C11: with `x` alone running, UpdateConfigModules of the batch
`[specXv2, y, specXv2]` sends one signal, for the first spec, and stops at `y`;
the loader still lists `x` alone, with its status unchanged. -/
theorem C11_updateConfig_only_signals_witness :
    (serveUpdateConfigModules envCfg runningX "srv" [0]).1.trace
      = runningX.trace ++
        [Event.configItemOverwrite "x", Event.modulesSet "x",
         Event.controlMsg "x" "update_config" "level=debug",
         Event.sendStatusModules "srv", Event.sendDataTo "srv" [1] none] ∧
    ∃ evs, (serveUpdateConfigModules envCfg runningX "srv" [0]).1.trace
        = runningX.trace ++ evs ∧
      (∀ e ∈ evs, Event.isLoaderCall e = false) ∧
      evs.filter Event.isControl
        = ((decodedBatch envCfg [0]).takeWhile
            (fun m => (envCfg.Get runningX.loader m.Name).isSome)).map configSignal ∧
      envCfg.List (serveUpdateConfigModules envCfg runningX "srv" [0]).1.loader
        = envCfg.List runningX.loader ∧
      ∀ k, (envCfg.Get (serveUpdateConfigModules envCfg runningX "srv" [0]).1.loader k).map
          envCfg.GetStatus
        = (envCfg.Get runningX.loader k).map envCfg.GetStatus := by
  refine ⟨by decide, ?_⟩
  obtain ⟨evs, ht, hc, hrest⟩ := C11_updateConfig_only_signals envCfg runningX "srv" [0]
  obtain ⟨hs, hl, hst⟩ := hrest (tableExternals_controlKeeps _)
  exact ⟨evs, ht, hc, hs, hl, hst⟩

/-! ## C12: a second Stop -/

/-- C12, as stated, fails: with `x` running, the first `Stop` succeeds (it
deregisters the endpoint, stops and deletes the modules, ends the receive loop
and closes the transport), and a second `Stop` on the state it left returns the
error that `Stop` returns on an orchestrator that was never started. -/
theorem C12_counterexample :
    (Stop envX tableStopExternals runningX).map (fun r => r.2) = some none ∧
    (Stop envX tableStopExternals runningX).map (fun r => r.1.trace)
      = some (runningX.trace ++
          [Event.protoDelModule true, Event.loaderStopAll none, Event.loaderDel "x" true,
           Event.receiverSend, Event.receiverWait, Event.protoClose none]) ∧
    ((Stop envX tableStopExternals runningX).bind
        (fun r => Stop envX tableStopExternals r.1)).map (fun r => r.2)
      = some (some "VXProto didn't initialized") ∧
    (Stop envX tableStopExternals
        (New (emptyLoader [] [] [] []) { sent := [], sendErr := none } "wss://server"
          "agent-1")).map (fun r => r.2)
      = some (some "VXProto didn't initialized") ∧
    ¬ (((Stop envX tableStopExternals runningX).bind
        (fun r => Stop envX tableStopExternals r.1)).map (fun r => r.2) = some none) := by
  refine ⟨by decide, by decide, by decide, by decide, by decide⟩

/-- C12, amended: when a `Stop` call has succeeded, it left the stop flag set,
the registry empty and `proto` and `socket` nil; a second `Stop` on that state
returns at once, without any call on a collaborator, and leaves the state exactly
as the first `Stop` left it, but it returns the error that `Stop` returns on an
orchestrator that was never started: the transport is not initialized. -/
theorem C12_second_stop_keeps_state_and_errors {L S T : Type} (E : Externals L S T)
    (X : StopExternals L T) (mm mm1 : MainModule L T)
    (h : Stop E X mm = some (mm1, none)) :
    Stop E X mm1 = some (mm1, some "VXProto didn't initialized") ∧
    mm1.hasStopped = true ∧ mm1.modules = (fun _ => none) ∧
    mm1.proto = false ∧ mm1.socket = false ∧
    ∀ (l : L) (t : T) (connectionString agentID : String),
      (Stop E X (New l t connectionString agentID)).map (fun r => r.2)
        = some (some "VXProto didn't initialized") := by
  obtain ⟨h1, h2, h3, h4⟩ := Stop_success E X mm mm1 h
  refine ⟨Stop_of_released E X mm1 h3 h1, h1, h2, h3, h4, ?_⟩
  intro l t cs aid
  unfold Stop
  simp [New]

/-- Witness of C12 amended: the first `Stop` with `x` running, and a second one. -/
theorem C12_second_stop_keeps_state_and_errors_witness :
    Stop envX tableStopExternals stoppedX
      = some (stoppedX, some "VXProto didn't initialized") ∧
    stoppedX.hasStopped = true ∧ stoppedX.modules = (fun _ => none) ∧
    stoppedX.proto = false ∧ stoppedX.socket = false ∧
    ∀ (l : TableLoader) (t : Wire) (connectionString agentID : String),
      (Stop envX tableStopExternals (New l t connectionString agentID)).map (fun r => r.2)
        = some (some "VXProto didn't initialized") :=
  C12_second_stop_keeps_state_and_errors envX tableStopExternals runningX stoppedX rfl

end mmodule
